import Mathlib

/-!
# Verification of the NMF core (`src/algorithm/nmf.py`)

Shallow embedding of the multiplicative-update NMF engines of this
repository (Euclidean, generalized KL, Itakura-Saito, Student-t, Cauchy,
complex and multichannel variants) over real-valued matrices, together
with proofs and refutations of the frozen specification claims.

Matrices are total functions `Fin m → Fin n → ℝ`, mirroring the numpy
arrays of the source.  Random draws of `np.random.rand` appear as
explicit parameters, python `assert`s become `Option`-valued checks, and
float arithmetic is modelled by real arithmetic.
-/

noncomputable section

open Finset

/-- Real matrices indexed by `Fin`, the model of 2-d numpy arrays. -/
abbrev Mat (m n : Nat) := Fin m → Fin n → ℝ

/-- Elementwise non-negativity of a matrix. -/
def Nonneg {m n : Nat} (A : Mat m n) : Prop := ∀ i j, 0 ≤ A i j

/-- Matrix product, the model of numpy `@`. -/
def mmul {a b c : Nat} (A : Mat a b) (B : Mat b c) : Mat a c :=
  fun i j => ∑ k, A i k * B k j

/-- Transpose, the model of `x.transpose(1, 0)`. -/
def transp {a b : Nat} (A : Mat a b) : Mat b a := fun i j => A j i

/-- The model of the numpy idiom `X[X < eps] = eps`: every entry below
`eps` is raised to `eps`. -/
def clipBelow {a b : Nat} (eps : ℝ) (A : Mat a b) : Mat a b :=
  fun i j => if A i j < eps then eps else A i j

lemma mmul_nonneg {a b c : Nat} {A : Mat a b} {B : Mat b c}
    (hA : Nonneg A) (hB : Nonneg B) : Nonneg (mmul A B) := by
  intro i j
  exact Finset.sum_nonneg fun k _ => mul_nonneg (hA i k) (hB k j)

lemma transp_nonneg {a b : Nat} {A : Mat a b} (hA : Nonneg A) :
    Nonneg (transp A) := fun i j => hA j i

lemma clipBelow_nonneg {a b : Nat} {eps : ℝ} {A : Mat a b} (hA : Nonneg A) :
    Nonneg (clipBelow eps A) := by
  intro i j
  unfold clipBelow
  split
  · exact le_of_lt (lt_of_le_of_lt (hA i j) (by assumption))
  · exact hA i j

lemma clipBelow_le {a b : Nat} {eps : ℝ} (A : Mat a b) (i : Fin a) (j : Fin b) :
    eps ≤ clipBelow eps A i j := by
  unfold clipBelow
  split
  · exact le_refl eps
  · exact le_of_not_lt (by assumption)

lemma clipBelow_pos {a b : Nat} {eps : ℝ} (heps : 0 < eps) (A : Mat a b) :
    ∀ i j, 0 < clipBelow eps A i j :=
  fun i j => lt_of_lt_of_le heps (clipBelow_le A i j)

/-- `clipBelow` agrees with the elementwise maximum with `eps`. -/
lemma clipBelow_eq_max {a b : Nat} (eps : ℝ) (A : Mat a b) (i : Fin a) (j : Fin b) :
    clipBelow eps A i j = max (A i j) eps := by
  unfold clipBelow
  rcases lt_or_le (A i j) eps with h | h
  · rw [if_pos h, max_eq_right (le_of_lt h)]
  · rw [if_neg (not_lt.mpr h), max_eq_left h]

/-! ## EUCNMF (`EUCNMF.update_once_mm`, nmf.py lines 182–207) -/

/-- Basis half of `EUCNMF.update_once_mm` (lines 189–196): the current
basis times `(numerator / TVV) ** (domain / (4 - domain))` where `TV` is
the eps-clipped product, `TVV = clip((TV ** ((4-domain)/domain)) @ Vᵀ)`
and `numerator = (target * TV ** ((2-domain)/domain)) @ Vᵀ`. -/
def EUCNMF.basis_step {bins bas frames : Nat} (target : Mat bins frames)
    (domain eps : ℝ) (T : Mat bins bas) (V : Mat bas frames) : Mat bins bas :=
  fun i k =>
    T i k *
      (mmul (fun b t => target b t * clipBelow eps (mmul T V) b t ^ ((2 - domain) / domain))
          (transp V) i k /
        clipBelow eps
          (mmul (fun b t => clipBelow eps (mmul T V) b t ^ ((4 - domain) / domain))
            (transp V)) i k) ^ (domain / (4 - domain))

/-- Activation half of `EUCNMF.update_once_mm` (lines 198–205), taking
the already-updated basis. -/
def EUCNMF.activation_step {bins bas frames : Nat} (target : Mat bins frames)
    (domain eps : ℝ) (T : Mat bins bas) (V : Mat bas frames) : Mat bas frames :=
  fun k t =>
    V k t *
      (mmul (transp T)
          (fun b u => target b u * clipBelow eps (mmul T V) b u ^ ((2 - domain) / domain)) k t /
        clipBelow eps
          (mmul (transp T)
            (fun b u => clipBelow eps (mmul T V) b u ^ ((4 - domain) / domain))) k t) ^
      (domain / (4 - domain))

/-- `EUCNMF.update_once_mm` (lines 182–207): update the basis, then the
activation from the just-updated basis. -/
def EUCNMF.update_once_mm {bins bas frames : Nat} (target : Mat bins frames)
    (domain eps : ℝ) (T : Mat bins bas) (V : Mat bas frames) :
    Mat bins bas × Mat bas frames :=
  (EUCNMF.basis_step target domain eps T V,
   EUCNMF.activation_step target domain eps (EUCNMF.basis_step target domain eps T V) V)

lemma euc_basis_step_nonneg {bins bas frames : Nat} {target : Mat bins frames}
    {T : Mat bins bas} {V : Mat bas frames} (htgt : Nonneg target) (hT : Nonneg T)
    (hV : Nonneg V) (domain eps : ℝ) :
    Nonneg (EUCNMF.basis_step target domain eps T V) := by
  intro i k
  unfold EUCNMF.basis_step
  have hTV : Nonneg (clipBelow eps (mmul T V)) := clipBelow_nonneg (mmul_nonneg hT hV)
  refine mul_nonneg (hT i k) (Real.rpow_nonneg (div_nonneg ?_ ?_) _)
  · exact mmul_nonneg
      (fun b t => mul_nonneg (htgt b t) (Real.rpow_nonneg (hTV b t) _))
      (transp_nonneg hV) i k
  · exact clipBelow_nonneg (mmul_nonneg
      (fun b t => Real.rpow_nonneg (hTV b t) _) (transp_nonneg hV)) i k

lemma euc_activation_step_nonneg {bins bas frames : Nat} {target : Mat bins frames}
    {T : Mat bins bas} {V : Mat bas frames} (htgt : Nonneg target) (hT : Nonneg T)
    (hV : Nonneg V) (domain eps : ℝ) :
    Nonneg (EUCNMF.activation_step target domain eps T V) := by
  intro k t
  unfold EUCNMF.activation_step
  have hTV : Nonneg (clipBelow eps (mmul T V)) := clipBelow_nonneg (mmul_nonneg hT hV)
  refine mul_nonneg (hV k t) (Real.rpow_nonneg (div_nonneg ?_ ?_) _)
  · exact mmul_nonneg (transp_nonneg hT)
      (fun b u => mul_nonneg (htgt b u) (Real.rpow_nonneg (hTV b u) _)) k t
  · exact clipBelow_nonneg (mmul_nonneg (transp_nonneg hT)
      (fun b u => Real.rpow_nonneg (hTV b u) _)) k t

lemma euc_update_once_mm_nonneg {bins bas frames : Nat} {target : Mat bins frames}
    {T : Mat bins bas} {V : Mat bas frames} (htgt : Nonneg target) (hT : Nonneg T)
    (hV : Nonneg V) (domain eps : ℝ) :
    Nonneg (EUCNMF.update_once_mm target domain eps T V).1 ∧
      Nonneg (EUCNMF.update_once_mm target domain eps T V).2 :=
  ⟨euc_basis_step_nonneg htgt hT hV domain eps,
   euc_activation_step_nonneg htgt
     (euc_basis_step_nonneg htgt hT hV domain eps) hV domain eps⟩

/-! ## KLNMF (`KLNMF.update_once_mm`, nmf.py lines 241–266) -/

/-- Basis half of `KLNMF.update_once_mm` (lines 248–255). -/
def KLNMF.basis_step {bins bas frames : Nat} (target : Mat bins frames)
    (domain eps : ℝ) (T : Mat bins bas) (V : Mat bas frames) : Mat bins bas :=
  fun i k =>
    T i k *
      (mmul (fun b t => target b t / clipBelow eps (mmul T V) b t) (transp V) i k /
        clipBelow eps
          (mmul (fun b t => clipBelow eps (mmul T V) b t ^ ((2 - domain) / domain))
            (transp V)) i k) ^ (domain / 2)

/-- Activation half of `KLNMF.update_once_mm` (lines 257–264), taking the
already-updated basis. -/
def KLNMF.activation_step {bins bas frames : Nat} (target : Mat bins frames)
    (domain eps : ℝ) (T : Mat bins bas) (V : Mat bas frames) : Mat bas frames :=
  fun k t =>
    V k t *
      (mmul (transp T) (fun b u => target b u / clipBelow eps (mmul T V) b u) k t /
        clipBelow eps
          (mmul (transp T)
            (fun b u => clipBelow eps (mmul T V) b u ^ ((2 - domain) / domain))) k t) ^
      (domain / 2)

/-- `KLNMF.update_once_mm` (lines 241–266). -/
def KLNMF.update_once_mm {bins bas frames : Nat} (target : Mat bins frames)
    (domain eps : ℝ) (T : Mat bins bas) (V : Mat bas frames) :
    Mat bins bas × Mat bas frames :=
  (KLNMF.basis_step target domain eps T V,
   KLNMF.activation_step target domain eps (KLNMF.basis_step target domain eps T V) V)

lemma kl_basis_step_nonneg {bins bas frames : Nat} {target : Mat bins frames}
    {T : Mat bins bas} {V : Mat bas frames} (htgt : Nonneg target) (hT : Nonneg T)
    (hV : Nonneg V) (domain eps : ℝ) :
    Nonneg (KLNMF.basis_step target domain eps T V) := by
  intro i k
  unfold KLNMF.basis_step
  have hTV : Nonneg (clipBelow eps (mmul T V)) := clipBelow_nonneg (mmul_nonneg hT hV)
  refine mul_nonneg (hT i k) (Real.rpow_nonneg (div_nonneg ?_ ?_) _)
  · exact mmul_nonneg (fun b t => div_nonneg (htgt b t) (hTV b t)) (transp_nonneg hV) i k
  · exact clipBelow_nonneg (mmul_nonneg
      (fun b t => Real.rpow_nonneg (hTV b t) _) (transp_nonneg hV)) i k

lemma kl_activation_step_nonneg {bins bas frames : Nat} {target : Mat bins frames}
    {T : Mat bins bas} {V : Mat bas frames} (htgt : Nonneg target) (hT : Nonneg T)
    (hV : Nonneg V) (domain eps : ℝ) :
    Nonneg (KLNMF.activation_step target domain eps T V) := by
  intro k t
  unfold KLNMF.activation_step
  have hTV : Nonneg (clipBelow eps (mmul T V)) := clipBelow_nonneg (mmul_nonneg hT hV)
  refine mul_nonneg (hV k t) (Real.rpow_nonneg (div_nonneg ?_ ?_) _)
  · exact mmul_nonneg (transp_nonneg hT)
      (fun b u => div_nonneg (htgt b u) (hTV b u)) k t
  · exact clipBelow_nonneg (mmul_nonneg (transp_nonneg hT)
      (fun b u => Real.rpow_nonneg (hTV b u) _)) k t

lemma kl_update_once_mm_nonneg {bins bas frames : Nat} {target : Mat bins frames}
    {T : Mat bins bas} {V : Mat bas frames} (htgt : Nonneg target) (hT : Nonneg T)
    (hV : Nonneg V) (domain eps : ℝ) :
    Nonneg (KLNMF.update_once_mm target domain eps T V).1 ∧
      Nonneg (KLNMF.update_once_mm target domain eps T V).2 :=
  ⟨kl_basis_step_nonneg htgt hT hV domain eps,
   kl_activation_step_nonneg htgt
     (kl_basis_step_nonneg htgt hT hV domain eps) hV domain eps⟩

/-! ## ISNMF (`ISNMF.update_once_mm` lines 302–327, `ISNMF.update_once_me`
lines 329–356; the `me` variant carries the in-body `assert domain == 2`,
which is modelled in the engine step `ISNMF.stepO` below) -/

/-- Basis half of `ISNMF.update_once_mm` (lines 309–316). -/
def ISNMF.basis_step_mm {bins bas frames : Nat} (target : Mat bins frames)
    (domain eps : ℝ) (T : Mat bins bas) (V : Mat bas frames) : Mat bins bas :=
  fun i k =>
    T i k *
      (mmul (fun b t => target b t / clipBelow eps (mmul T V) b t ^ ((domain + 2) / domain))
          (transp V) i k /
        clipBelow eps
          (mmul (fun b t => 1 / clipBelow eps (mmul T V) b t) (transp V)) i k) ^
      (domain / (domain + 2))

/-- Activation half of `ISNMF.update_once_mm` (lines 318–325). -/
def ISNMF.activation_step_mm {bins bas frames : Nat} (target : Mat bins frames)
    (domain eps : ℝ) (T : Mat bins bas) (V : Mat bas frames) : Mat bas frames :=
  fun k t =>
    V k t *
      (mmul (transp T)
          (fun b u => target b u / clipBelow eps (mmul T V) b u ^ ((domain + 2) / domain)) k t /
        clipBelow eps
          (mmul (transp T) (fun b u => 1 / clipBelow eps (mmul T V) b u)) k t) ^
      (domain / (domain + 2))

/-- `ISNMF.update_once_mm` (lines 302–327). -/
def ISNMF.update_once_mm {bins bas frames : Nat} (target : Mat bins frames)
    (domain eps : ℝ) (T : Mat bins bas) (V : Mat bas frames) :
    Mat bins bas × Mat bas frames :=
  (ISNMF.basis_step_mm target domain eps T V,
   ISNMF.activation_step_mm target domain eps (ISNMF.basis_step_mm target domain eps T V) V)

/-- Basis half of `ISNMF.update_once_me` (lines 338–345): as in `mm` but
with no outer exponent. -/
def ISNMF.basis_step_me {bins bas frames : Nat} (target : Mat bins frames)
    (domain eps : ℝ) (T : Mat bins bas) (V : Mat bas frames) : Mat bins bas :=
  fun i k =>
    T i k *
      (mmul (fun b t => target b t / clipBelow eps (mmul T V) b t ^ ((domain + 2) / domain))
          (transp V) i k /
        clipBelow eps
          (mmul (fun b t => 1 / clipBelow eps (mmul T V) b t) (transp V)) i k)

/-- Activation half of `ISNMF.update_once_me` (lines 347–354). -/
def ISNMF.activation_step_me {bins bas frames : Nat} (target : Mat bins frames)
    (domain eps : ℝ) (T : Mat bins bas) (V : Mat bas frames) : Mat bas frames :=
  fun k t =>
    V k t *
      (mmul (transp T)
          (fun b u => target b u / clipBelow eps (mmul T V) b u ^ ((domain + 2) / domain)) k t /
        clipBelow eps
          (mmul (transp T) (fun b u => 1 / clipBelow eps (mmul T V) b u)) k t)

/-- `ISNMF.update_once_me` (lines 329–356). -/
def ISNMF.update_once_me {bins bas frames : Nat} (target : Mat bins frames)
    (domain eps : ℝ) (T : Mat bins bas) (V : Mat bas frames) :
    Mat bins bas × Mat bas frames :=
  (ISNMF.basis_step_me target domain eps T V,
   ISNMF.activation_step_me target domain eps (ISNMF.basis_step_me target domain eps T V) V)

lemma is_basis_step_mm_nonneg {bins bas frames : Nat} {target : Mat bins frames}
    {T : Mat bins bas} {V : Mat bas frames} (htgt : Nonneg target) (hT : Nonneg T)
    (hV : Nonneg V) (domain eps : ℝ) :
    Nonneg (ISNMF.basis_step_mm target domain eps T V) := by
  intro i k
  unfold ISNMF.basis_step_mm
  have hTV : Nonneg (clipBelow eps (mmul T V)) := clipBelow_nonneg (mmul_nonneg hT hV)
  refine mul_nonneg (hT i k) (Real.rpow_nonneg (div_nonneg ?_ ?_) _)
  · exact mmul_nonneg
      (fun b t => div_nonneg (htgt b t) (Real.rpow_nonneg (hTV b t) _))
      (transp_nonneg hV) i k
  · exact clipBelow_nonneg (mmul_nonneg
      (fun b t => div_nonneg zero_le_one (hTV b t)) (transp_nonneg hV)) i k

lemma is_activation_step_mm_nonneg {bins bas frames : Nat} {target : Mat bins frames}
    {T : Mat bins bas} {V : Mat bas frames} (htgt : Nonneg target) (hT : Nonneg T)
    (hV : Nonneg V) (domain eps : ℝ) :
    Nonneg (ISNMF.activation_step_mm target domain eps T V) := by
  intro k t
  unfold ISNMF.activation_step_mm
  have hTV : Nonneg (clipBelow eps (mmul T V)) := clipBelow_nonneg (mmul_nonneg hT hV)
  refine mul_nonneg (hV k t) (Real.rpow_nonneg (div_nonneg ?_ ?_) _)
  · exact mmul_nonneg (transp_nonneg hT)
      (fun b u => div_nonneg (htgt b u) (Real.rpow_nonneg (hTV b u) _)) k t
  · exact clipBelow_nonneg (mmul_nonneg (transp_nonneg hT)
      (fun b u => div_nonneg zero_le_one (hTV b u))) k t

lemma is_update_once_mm_nonneg {bins bas frames : Nat} {target : Mat bins frames}
    {T : Mat bins bas} {V : Mat bas frames} (htgt : Nonneg target) (hT : Nonneg T)
    (hV : Nonneg V) (domain eps : ℝ) :
    Nonneg (ISNMF.update_once_mm target domain eps T V).1 ∧
      Nonneg (ISNMF.update_once_mm target domain eps T V).2 :=
  ⟨is_basis_step_mm_nonneg htgt hT hV domain eps,
   is_activation_step_mm_nonneg htgt
     (is_basis_step_mm_nonneg htgt hT hV domain eps) hV domain eps⟩

lemma is_basis_step_me_nonneg {bins bas frames : Nat} {target : Mat bins frames}
    {T : Mat bins bas} {V : Mat bas frames} (htgt : Nonneg target) (hT : Nonneg T)
    (hV : Nonneg V) (domain eps : ℝ) :
    Nonneg (ISNMF.basis_step_me target domain eps T V) := by
  intro i k
  unfold ISNMF.basis_step_me
  have hTV : Nonneg (clipBelow eps (mmul T V)) := clipBelow_nonneg (mmul_nonneg hT hV)
  refine mul_nonneg (hT i k) (div_nonneg ?_ ?_)
  · exact mmul_nonneg
      (fun b t => div_nonneg (htgt b t) (Real.rpow_nonneg (hTV b t) _))
      (transp_nonneg hV) i k
  · exact clipBelow_nonneg (mmul_nonneg
      (fun b t => div_nonneg zero_le_one (hTV b t)) (transp_nonneg hV)) i k

lemma is_activation_step_me_nonneg {bins bas frames : Nat} {target : Mat bins frames}
    {T : Mat bins bas} {V : Mat bas frames} (htgt : Nonneg target) (hT : Nonneg T)
    (hV : Nonneg V) (domain eps : ℝ) :
    Nonneg (ISNMF.activation_step_me target domain eps T V) := by
  intro k t
  unfold ISNMF.activation_step_me
  have hTV : Nonneg (clipBelow eps (mmul T V)) := clipBelow_nonneg (mmul_nonneg hT hV)
  refine mul_nonneg (hV k t) (div_nonneg ?_ ?_)
  · exact mmul_nonneg (transp_nonneg hT)
      (fun b u => div_nonneg (htgt b u) (Real.rpow_nonneg (hTV b u) _)) k t
  · exact clipBelow_nonneg (mmul_nonneg (transp_nonneg hT)
      (fun b u => div_nonneg zero_le_one (hTV b u))) k t

lemma is_update_once_me_nonneg {bins bas frames : Nat} {target : Mat bins frames}
    {T : Mat bins bas} {V : Mat bas frames} (htgt : Nonneg target) (hT : Nonneg T)
    (hV : Nonneg V) (domain eps : ℝ) :
    Nonneg (ISNMF.update_once_me target domain eps T V).1 ∧
      Nonneg (ISNMF.update_once_me target domain eps T V).2 :=
  ⟨is_basis_step_me_nonneg htgt hT hV domain eps,
   is_activation_step_me_nonneg htgt
     (is_basis_step_me_nonneg htgt hT hV domain eps) hV domain eps⟩

/-! ## tNMF (`tNMF.update_once_mm`, nmf.py lines 397–428; the in-body
`assert domain == 2` is modelled in `tNMF.stepO` below) -/

/-- Basis half of `tNMF.update_once_mm` (lines 408–416): `Z` is the
eps-floored target and `harmonic` the weighted harmonic blend of the
clipped reconstruction and `Z` with degrees of freedom `nu`. -/
def tNMF.basis_step {bins bas frames : Nat} (target : Mat bins frames)
    (nu domain eps : ℝ) (T : Mat bins bas) (V : Mat bas frames) : Mat bins bas :=
  fun i k =>
    T i k *
      Real.sqrt
        (mmul (fun b t =>
            (1 / (2 / ((2 + nu) * clipBelow eps (mmul T V) b t) +
              nu / ((2 + nu) * max (target b t) eps))) /
              clipBelow eps (mmul T V) b t ^ (2 : ℕ))
          (transp V) i k /
        clipBelow eps
          (mmul (fun b t => 1 / clipBelow eps (mmul T V) b t) (transp V)) i k)

/-- Activation half of `tNMF.update_once_mm` (lines 418–426). -/
def tNMF.activation_step {bins bas frames : Nat} (target : Mat bins frames)
    (nu domain eps : ℝ) (T : Mat bins bas) (V : Mat bas frames) : Mat bas frames :=
  fun k t =>
    V k t *
      Real.sqrt
        (mmul (transp T)
          (fun b u =>
            (1 / (2 / ((2 + nu) * clipBelow eps (mmul T V) b u) +
              nu / ((2 + nu) * max (target b u) eps))) /
              clipBelow eps (mmul T V) b u ^ (2 : ℕ)) k t /
        clipBelow eps
          (mmul (transp T) (fun b u => 1 / clipBelow eps (mmul T V) b u)) k t)

/-- `tNMF.update_once_mm` (lines 397–428). -/
def tNMF.update_once_mm {bins bas frames : Nat} (target : Mat bins frames)
    (nu domain eps : ℝ) (T : Mat bins bas) (V : Mat bas frames) :
    Mat bins bas × Mat bas frames :=
  (tNMF.basis_step target nu domain eps T V,
   tNMF.activation_step target nu domain eps (tNMF.basis_step target nu domain eps T V) V)

lemma t_basis_step_nonneg {bins bas frames : Nat} {target : Mat bins frames}
    {T : Mat bins bas} {V : Mat bas frames} (hT : Nonneg T)
    (nu domain eps : ℝ) : Nonneg (tNMF.basis_step target nu domain eps T V) := by
  intro i k
  unfold tNMF.basis_step
  exact mul_nonneg (hT i k) (Real.sqrt_nonneg _)

lemma t_activation_step_nonneg {bins bas frames : Nat} {target : Mat bins frames}
    {T : Mat bins bas} {V : Mat bas frames} (hV : Nonneg V)
    (nu domain eps : ℝ) : Nonneg (tNMF.activation_step target nu domain eps T V) := by
  intro k t
  unfold tNMF.activation_step
  exact mul_nonneg (hV k t) (Real.sqrt_nonneg _)

lemma t_update_once_mm_nonneg {bins bas frames : Nat} {target : Mat bins frames}
    {T : Mat bins bas} {V : Mat bas frames} (hT : Nonneg T) (hV : Nonneg V)
    (nu domain eps : ℝ) :
    Nonneg (tNMF.update_once_mm target nu domain eps T V).1 ∧
      Nonneg (tNMF.update_once_mm target nu domain eps T V).2 :=
  ⟨t_basis_step_nonneg hT nu domain eps,
   t_activation_step_nonneg hV nu domain eps⟩

/-! ## CauchyNMF update rules (`CauchyNMF.update_once_*`, nmf.py lines
449–595; each variant carries an in-body `assert domain == 2`, modelled
in `CauchyNMF.stepO` below, so the rules themselves take no domain) -/

/-- The clipped tensor `C = 2 * target + TV ** 2` of
`CauchyNMF.update_once_naive` / `update_once_mm` (lines 477–478 resp.
508–509), built from the clipped reconstruction. -/
def CauchyNMF.Cclip {bins bas frames : Nat} (target : Mat bins frames) (eps : ℝ)
    (T : Mat bins bas) (V : Mat bas frames) : Mat bins frames :=
  clipBelow eps (fun b t => 2 * target b t + clipBelow eps (mmul T V) b t ^ (2 : ℕ))

/-- `TVC = TV / C` of `update_once_naive` / `update_once_mm` (lines 479,
510). -/
def CauchyNMF.TVC {bins bas frames : Nat} (target : Mat bins frames) (eps : ℝ)
    (T : Mat bins bas) (V : Mat bas frames) : Mat bins frames :=
  fun b t => clipBelow eps (mmul T V) b t / CauchyNMF.Cclip target eps T V b t

/-- Basis half of `CauchyNMF.update_once_naive` (lines 474–482): no
square root on the multiplicative ratio. -/
def CauchyNMF.basis_step_naive {bins bas frames : Nat} (target : Mat bins frames)
    (eps : ℝ) (T : Mat bins bas) (V : Mat bas frames) : Mat bins bas :=
  fun b k =>
    T b k *
      ((∑ t, V k t / clipBelow eps (mmul T V) b t) /
        clipBelow eps
          (mmul (fun b' t => 3 * CauchyNMF.TVC target eps T V b' t) (transp V)) b k)

/-- Activation half of `CauchyNMF.update_once_naive` (lines 484–492),
taking the already-updated basis. -/
def CauchyNMF.activation_step_naive {bins bas frames : Nat} (target : Mat bins frames)
    (eps : ℝ) (T : Mat bins bas) (V : Mat bas frames) : Mat bas frames :=
  fun k t =>
    V k t *
      ((∑ b, T b k / clipBelow eps (mmul T V) b t) /
        clipBelow eps
          (mmul (fun k' b => 3 * transp T k' b) (CauchyNMF.TVC target eps T V)) k t)

/-- `CauchyNMF.update_once_naive` (lines 461–494). -/
def CauchyNMF.update_once_naive {bins bas frames : Nat} (target : Mat bins frames)
    (eps : ℝ) (T : Mat bins bas) (V : Mat bas frames) :
    Mat bins bas × Mat bas frames :=
  (CauchyNMF.basis_step_naive target eps T V,
   CauchyNMF.activation_step_naive target eps (CauchyNMF.basis_step_naive target eps T V) V)

/-- Basis half of `CauchyNMF.update_once_mm` (lines 505–513): the naive
ratio under a square root. -/
def CauchyNMF.basis_step_mm {bins bas frames : Nat} (target : Mat bins frames)
    (eps : ℝ) (T : Mat bins bas) (V : Mat bas frames) : Mat bins bas :=
  fun b k =>
    T b k *
      Real.sqrt
        ((∑ t, V k t / clipBelow eps (mmul T V) b t) /
          clipBelow eps
            (mmul (fun b' t => 3 * CauchyNMF.TVC target eps T V b' t) (transp V)) b k)

/-- Activation half of `CauchyNMF.update_once_mm` (lines 515–523). -/
def CauchyNMF.activation_step_mm {bins bas frames : Nat} (target : Mat bins frames)
    (eps : ℝ) (T : Mat bins bas) (V : Mat bas frames) : Mat bas frames :=
  fun k t =>
    V k t *
      Real.sqrt
        ((∑ b, T b k / clipBelow eps (mmul T V) b t) /
          clipBelow eps
            (mmul (fun k' b => 3 * transp T k' b) (CauchyNMF.TVC target eps T V)) k t)

/-- `CauchyNMF.update_once_mm` (lines 496–525). -/
def CauchyNMF.update_once_mm {bins bas frames : Nat} (target : Mat bins frames)
    (eps : ℝ) (T : Mat bins bas) (V : Mat bas frames) :
    Mat bins bas × Mat bas frames :=
  (CauchyNMF.basis_step_mm target eps T V,
   CauchyNMF.activation_step_mm target eps (CauchyNMF.basis_step_mm target eps T V) V)

/-- `TV2Z = clip(TV ** 2 + target)` of `CauchyNMF.update_once_me` (lines
541–542, 550–551); here `TV` is the unclipped product. -/
def CauchyNMF.TV2Z {bins bas frames : Nat} (target : Mat bins frames) (eps : ℝ)
    (T : Mat bins bas) (V : Mat bas frames) : Mat bins frames :=
  clipBelow eps (fun b t => mmul T V b t ^ (2 : ℕ) + target b t)

/-- `A = (3/4) * (TV / TV2Z) @ Vᵀ` of `update_once_me` (line 543). -/
def CauchyNMF.meA {bins bas frames : Nat} (target : Mat bins frames) (eps : ℝ)
    (T : Mat bins bas) (V : Mat bas frames) : Mat bins bas :=
  mmul (fun b t => 3 / 4 * (mmul T V b t / CauchyNMF.TV2Z target eps T V b t)) (transp V)

/-- `B = Σ_t V / TV` of `update_once_me` (line 544); `TV` unclipped. -/
def CauchyNMF.meB {bins bas frames : Nat} (T : Mat bins bas) (V : Mat bas frames) :
    Mat bins bas :=
  fun b k => ∑ t, V k t / mmul T V b t

/-- Basis half of `CauchyNMF.update_once_me` (lines 540–547): closed-form
positive root of the ME quadratic. -/
def CauchyNMF.basis_step_me {bins bas frames : Nat} (target : Mat bins frames)
    (eps : ℝ) (T : Mat bins bas) (V : Mat bas frames) : Mat bins bas :=
  fun b k =>
    T b k *
      (CauchyNMF.meB T V b k /
        clipBelow eps
          (fun b' k' => CauchyNMF.meA target eps T V b' k' +
            Real.sqrt (CauchyNMF.meA target eps T V b' k' ^ (2 : ℕ) +
              2 * CauchyNMF.meB T V b' k' * CauchyNMF.meA target eps T V b' k')) b k)

/-- `A = (3/4) * Tᵀ @ (TV / TV2Z)` of `update_once_me` (line 552). -/
def CauchyNMF.meA2 {bins bas frames : Nat} (target : Mat bins frames) (eps : ℝ)
    (T : Mat bins bas) (V : Mat bas frames) : Mat bas frames :=
  mmul (fun k b => 3 / 4 * transp T k b)
    (fun b t => mmul T V b t / CauchyNMF.TV2Z target eps T V b t)

/-- `B = Σ_b T / TV` of `update_once_me` (line 553). -/
def CauchyNMF.meB2 {bins bas frames : Nat} (T : Mat bins bas) (V : Mat bas frames) :
    Mat bas frames :=
  fun k t => ∑ b, T b k / mmul T V b t

/-- Activation half of `CauchyNMF.update_once_me` (lines 549–556). -/
def CauchyNMF.activation_step_me {bins bas frames : Nat} (target : Mat bins frames)
    (eps : ℝ) (T : Mat bins bas) (V : Mat bas frames) : Mat bas frames :=
  fun k t =>
    V k t *
      (CauchyNMF.meB2 T V k t /
        clipBelow eps
          (fun k' t' => CauchyNMF.meA2 target eps T V k' t' +
            Real.sqrt (CauchyNMF.meA2 target eps T V k' t' ^ (2 : ℕ) +
              2 * CauchyNMF.meB2 T V k' t' * CauchyNMF.meA2 target eps T V k' t')) k t)

/-- `CauchyNMF.update_once_me` (lines 527–558). -/
def CauchyNMF.update_once_me {bins bas frames : Nat} (target : Mat bins frames)
    (eps : ℝ) (T : Mat bins bas) (V : Mat bas frames) :
    Mat bins bas × Mat bas frames :=
  (CauchyNMF.basis_step_me target eps T V,
   CauchyNMF.activation_step_me target eps (CauchyNMF.basis_step_me target eps T V) V)

/-- `C = 2 * target + TV ** 2` of `CauchyNMF.update_once_mm_fast` (lines
571, 584); `TV` unclipped, and `C` itself not yet clipped. -/
def CauchyNMF.fastC {bins bas frames : Nat} (target : Mat bins frames)
    (T : Mat bins bas) (V : Mat bas frames) : Mat bins frames :=
  fun b t => 2 * target b t + mmul T V b t ^ (2 : ℕ)

/-- `ZCTV = target / clip(C * TV)` of `update_once_mm_fast` (lines
572–574, 585–587). -/
def CauchyNMF.fastZCTV {bins bas frames : Nat} (target : Mat bins frames) (eps : ℝ)
    (T : Mat bins bas) (V : Mat bas frames) : Mat bins frames :=
  fun b t =>
    target b t /
      clipBelow eps (fun b' t' => CauchyNMF.fastC target T V b' t' * mmul T V b' t') b t

/-- `TVC = TV / clip(C)` of `update_once_mm_fast` (lines 575–576,
588–589). -/
def CauchyNMF.fastTVC {bins bas frames : Nat} (target : Mat bins frames) (eps : ℝ)
    (T : Mat bins bas) (V : Mat bas frames) : Mat bins frames :=
  fun b t => mmul T V b t / clipBelow eps (CauchyNMF.fastC target T V) b t

/-- Basis half of `CauchyNMF.update_once_mm_fast` (lines 569–580). -/
def CauchyNMF.basis_step_mm_fast {bins bas frames : Nat} (target : Mat bins frames)
    (eps : ℝ) (T : Mat bins bas) (V : Mat bas frames) : Mat bins bas :=
  fun b k =>
    T b k *
      Real.sqrt
        (mmul (CauchyNMF.fastZCTV target eps T V) (transp V) b k /
          clipBelow eps (mmul (CauchyNMF.fastTVC target eps T V) (transp V)) b k)

/-- Activation half of `CauchyNMF.update_once_mm_fast` (lines 582–593). -/
def CauchyNMF.activation_step_mm_fast {bins bas frames : Nat} (target : Mat bins frames)
    (eps : ℝ) (T : Mat bins bas) (V : Mat bas frames) : Mat bas frames :=
  fun k t =>
    V k t *
      Real.sqrt
        (mmul (transp T) (CauchyNMF.fastZCTV target eps T V) k t /
          clipBelow eps (mmul (transp T) (CauchyNMF.fastTVC target eps T V)) k t)

/-- `CauchyNMF.update_once_mm_fast` (lines 560–595). -/
def CauchyNMF.update_once_mm_fast {bins bas frames : Nat} (target : Mat bins frames)
    (eps : ℝ) (T : Mat bins bas) (V : Mat bas frames) :
    Mat bins bas × Mat bas frames :=
  (CauchyNMF.basis_step_mm_fast target eps T V,
   CauchyNMF.activation_step_mm_fast target eps
     (CauchyNMF.basis_step_mm_fast target eps T V) V)

lemma cauchy_TVC_nonneg {bins bas frames : Nat} {target : Mat bins frames}
    {T : Mat bins bas} {V : Mat bas frames} (htgt : Nonneg target) (hT : Nonneg T)
    (hV : Nonneg V) (eps : ℝ) : Nonneg (CauchyNMF.TVC target eps T V) := by
  intro b t
  unfold CauchyNMF.TVC CauchyNMF.Cclip
  have hTV : Nonneg (clipBelow eps (mmul T V)) := clipBelow_nonneg (mmul_nonneg hT hV)
  refine div_nonneg (hTV b t) (clipBelow_nonneg (fun b' t' => ?_) b t)
  exact add_nonneg (mul_nonneg zero_le_two (htgt b' t')) (pow_nonneg (hTV b' t') 2)

lemma cauchy_update_once_naive_nonneg {bins bas frames : Nat}
    {target : Mat bins frames} {T : Mat bins bas} {V : Mat bas frames}
    (htgt : Nonneg target) (hT : Nonneg T) (hV : Nonneg V) (eps : ℝ) :
    Nonneg (CauchyNMF.update_once_naive target eps T V).1 ∧
      Nonneg (CauchyNMF.update_once_naive target eps T V).2 := by
  have hTV : Nonneg (clipBelow eps (mmul T V)) := clipBelow_nonneg (mmul_nonneg hT hV)
  have hbasis : Nonneg (CauchyNMF.basis_step_naive target eps T V) := by
    intro b k
    unfold CauchyNMF.basis_step_naive
    refine mul_nonneg (hT b k) (div_nonneg ?_ ?_)
    · exact Finset.sum_nonneg fun t _ => div_nonneg (hV k t) (hTV b t)
    · exact clipBelow_nonneg (mmul_nonneg
        (fun b' t => mul_nonneg zero_le_three (cauchy_TVC_nonneg htgt hT hV eps b' t))
        (transp_nonneg hV)) b k
  refine ⟨hbasis, ?_⟩
  intro k t
  unfold CauchyNMF.update_once_naive CauchyNMF.activation_step_naive
  have hTV' : Nonneg (clipBelow eps (mmul (CauchyNMF.basis_step_naive target eps T V) V)) :=
    clipBelow_nonneg (mmul_nonneg hbasis hV)
  refine mul_nonneg (hV k t) (div_nonneg ?_ ?_)
  · exact Finset.sum_nonneg fun b _ => div_nonneg (hbasis b k) (hTV' b t)
  · exact clipBelow_nonneg (mmul_nonneg
      (fun k' b => mul_nonneg zero_le_three (transp_nonneg hbasis k' b))
      (cauchy_TVC_nonneg htgt hbasis hV eps)) k t

lemma cauchy_update_once_mm_nonneg {bins bas frames : Nat}
    {target : Mat bins frames} {T : Mat bins bas} {V : Mat bas frames}
    (hT : Nonneg T) (hV : Nonneg V) (eps : ℝ) :
    Nonneg (CauchyNMF.update_once_mm target eps T V).1 ∧
      Nonneg (CauchyNMF.update_once_mm target eps T V).2 := by
  have hbasis : Nonneg (CauchyNMF.basis_step_mm target eps T V) := by
    intro b k
    exact mul_nonneg (hT b k) (Real.sqrt_nonneg _)
  exact ⟨hbasis, fun k t => mul_nonneg (hV k t) (Real.sqrt_nonneg _)⟩

lemma cauchy_meB_nonneg {bins bas frames : Nat} {T : Mat bins bas}
    {V : Mat bas frames} (hT : Nonneg T) (hV : Nonneg V) :
    Nonneg (CauchyNMF.meB T V) := by
  intro b k
  exact Finset.sum_nonneg fun t _ => div_nonneg (hV k t) (mmul_nonneg hT hV b t)

lemma cauchy_meB2_nonneg {bins bas frames : Nat} {T : Mat bins bas}
    {V : Mat bas frames} (hT : Nonneg T) (hV : Nonneg V) :
    Nonneg (CauchyNMF.meB2 T V) := by
  intro k t
  exact Finset.sum_nonneg fun b _ => div_nonneg (hT b k) (mmul_nonneg hT hV b t)

lemma cauchy_update_once_me_nonneg {bins bas frames : Nat}
    {target : Mat bins frames} {T : Mat bins bas} {V : Mat bas frames}
    (htgt : Nonneg target) (hT : Nonneg T) (hV : Nonneg V) (eps : ℝ) :
    Nonneg (CauchyNMF.update_once_me target eps T V).1 ∧
      Nonneg (CauchyNMF.update_once_me target eps T V).2 := by
  have hA : ∀ (T' : Mat bins bas), Nonneg T' → Nonneg (CauchyNMF.meA target eps T' V) := by
    intro T' hT'
    refine mmul_nonneg (fun b t => ?_) (transp_nonneg hV)
    refine mul_nonneg (by norm_num) (div_nonneg (mmul_nonneg hT' hV b t) ?_)
    unfold CauchyNMF.TV2Z
    exact clipBelow_nonneg
      (fun b' t' => add_nonneg (pow_nonneg (mmul_nonneg hT' hV b' t') 2) (htgt b' t')) b t
  have hden : ∀ (T' : Mat bins bas), Nonneg T' →
      Nonneg (clipBelow eps
        (fun b' k' => CauchyNMF.meA target eps T' V b' k' +
          Real.sqrt (CauchyNMF.meA target eps T' V b' k' ^ (2 : ℕ) +
            2 * CauchyNMF.meB T' V b' k' * CauchyNMF.meA target eps T' V b' k'))) := by
    intro T' hT'
    exact clipBelow_nonneg fun b k => add_nonneg (hA T' hT' b k) (Real.sqrt_nonneg _)
  have hbasis : Nonneg (CauchyNMF.basis_step_me target eps T V) := by
    intro b k
    unfold CauchyNMF.basis_step_me
    exact mul_nonneg (hT b k)
      (div_nonneg (cauchy_meB_nonneg hT hV b k) (hden T hT b k))
  refine ⟨hbasis, ?_⟩
  intro k t
  unfold CauchyNMF.update_once_me CauchyNMF.activation_step_me
  have hA2 : Nonneg (CauchyNMF.meA2 target eps (CauchyNMF.basis_step_me target eps T V) V) := by
    refine mmul_nonneg (fun k' b => mul_nonneg (by norm_num) (transp_nonneg hbasis k' b))
      (fun b t' => div_nonneg (mmul_nonneg hbasis hV b t') ?_)
    unfold CauchyNMF.TV2Z
    exact clipBelow_nonneg
      (fun b' t2 => add_nonneg (pow_nonneg (mmul_nonneg hbasis hV b' t2) 2) (htgt b' t2)) b t'
  refine mul_nonneg (hV k t) (div_nonneg (cauchy_meB2_nonneg hbasis hV k t) ?_)
  exact clipBelow_nonneg (fun k' t' => add_nonneg (hA2 k' t') (Real.sqrt_nonneg _)) k t

lemma cauchy_update_once_mm_fast_nonneg {bins bas frames : Nat}
    {target : Mat bins frames} {T : Mat bins bas} {V : Mat bas frames}
    (hT : Nonneg T) (hV : Nonneg V) (eps : ℝ) :
    Nonneg (CauchyNMF.update_once_mm_fast target eps T V).1 ∧
      Nonneg (CauchyNMF.update_once_mm_fast target eps T V).2 := by
  have hbasis : Nonneg (CauchyNMF.basis_step_mm_fast target eps T V) := by
    intro b k
    exact mul_nonneg (hT b k) (Real.sqrt_nonneg _)
  exact ⟨hbasis, fun k t => mul_nonneg (hV k t) (Real.sqrt_nonneg _)⟩

/-! ## Divergence criteria

The `EUCNMF`, `tNMF` and `CauchyNMF` criteria are defined inline in
`nmf.py` (lines 163, 367–371, 434–441).  `generalized_kl_divergence` and
`is_divergence` are imported from `criterion/divergence.py`, a file of
this repository that is not under `src/`, so they are modelled from the
spec below. -/

/-- Modelled from the spec: `generalized_kl_divergence` of
`criterion/divergence.py` is absent from `src/`.  The spec describes a
pure elementwise generalized Kullback-Leibler divergence with every
divergence computation enforcing a floor `eps`; following the in-source
criteria (`t_divergence`, `cauchy_divergence`) the floor is an additive
`eps` offset: `d(x, t) = (t+eps)·log((t+eps)/(x+eps)) − (t+eps) + (x+eps)`. -/
def gklDiv (eps x t : ℝ) : ℝ :=
  (t + eps) * Real.log ((t + eps) / (x + eps)) - (t + eps) + (x + eps)

/-- Modelled from the spec: `is_divergence` of `criterion/divergence.py`
is absent from `src/`.  Elementwise Itakura-Saito divergence with the
same additive `eps` floor: `d(x, t) = (t+eps)/(x+eps) − log((t+eps)/(x+eps)) − 1`. -/
def isDiv (eps x t : ℝ) : ℝ :=
  (t + eps) / (x + eps) - Real.log ((t + eps) / (x + eps)) - 1

/-- `t_divergence` of `tNMF.__init__` (nmf.py lines 367–371). -/
def tDiv (nu eps x t : ℝ) : ℝ :=
  Real.log (x + eps) + (2 + nu) / 2 * Real.log (1 + 2 / nu * ((t + eps) / (x + eps)))

/-- `cauchy_divergence` of `CauchyNMF.__init__` (nmf.py lines 434–441). -/
def cauchyDiv (eps x t : ℝ) : ℝ :=
  Real.log ((t + eps) / (x + eps)) +
    3 / 2 * Real.log ((2 * (t + eps) ^ (2 : ℕ) + (x + eps) ^ (2 : ℕ)) / (3 * (t + eps) ^ (2 : ℕ)))

lemma gklDiv_nonneg {eps x t : ℝ} (hx : 0 ≤ x) (ht : 0 ≤ t) (heps : 0 < eps) :
    0 ≤ gklDiv eps x t := by
  unfold gklDiv
  have ha : 0 < x + eps := by linarith
  have hb : 0 < t + eps := by linarith
  have hlog : Real.log ((x + eps) / (t + eps)) ≤ (x + eps) / (t + eps) - 1 :=
    Real.log_le_sub_one_of_pos (div_pos ha hb)
  have hmul : (t + eps) * Real.log ((x + eps) / (t + eps)) ≤ (x + eps) - (t + eps) := by
    have := mul_le_mul_of_nonneg_left hlog (le_of_lt hb)
    calc (t + eps) * Real.log ((x + eps) / (t + eps))
        ≤ (t + eps) * ((x + eps) / (t + eps) - 1) := this
      _ = (x + eps) - (t + eps) := by field_simp
  have hswap : Real.log ((t + eps) / (x + eps)) = -Real.log ((x + eps) / (t + eps)) := by
    rw [Real.log_div (ne_of_gt hb) (ne_of_gt ha), Real.log_div (ne_of_gt ha) (ne_of_gt hb)]
    ring
  rw [hswap]
  nlinarith [hmul]

lemma isDiv_nonneg {eps x t : ℝ} (hx : 0 ≤ x) (ht : 0 ≤ t) (heps : 0 < eps) :
    0 ≤ isDiv eps x t := by
  unfold isDiv
  have ha : 0 < x + eps := by linarith
  have hb : 0 < t + eps := by linarith
  have hlog : Real.log ((t + eps) / (x + eps)) ≤ (t + eps) / (x + eps) - 1 :=
    Real.log_le_sub_one_of_pos (div_pos hb ha)
  linarith

lemma cauchyDiv_nonneg {eps x t : ℝ} (hx : 0 ≤ x) (ht : 0 ≤ t) (heps : 0 < eps) :
    0 ≤ cauchyDiv eps x t := by
  unfold cauchyDiv
  set a := x + eps with ha_def
  set b := t + eps with hb_def
  have ha : 0 < a := by simp only [ha_def]; linarith
  have hb : 0 < b := by simp only [hb_def]; linarith
  have hN : 0 < (2 * b ^ (2 : ℕ) + a ^ (2 : ℕ)) / (3 * b ^ (2 : ℕ)) := by positivity
  have hr : 0 < a / b := div_pos ha hb
  -- cube inequality `(2 b² + a²)³ ≥ 27 b⁴ a²`, i.e. AM-GM on (b², b², a²)
  have key : 27 * b ^ (4 : ℕ) * a ^ (2 : ℕ) ≤ (2 * b ^ (2 : ℕ) + a ^ (2 : ℕ)) ^ (3 : ℕ) := by
    nlinarith [mul_nonneg (sq_nonneg (a ^ (2 : ℕ) - b ^ (2 : ℕ)))
      (add_nonneg (sq_nonneg a) (mul_nonneg (by norm_num : (0:ℝ) ≤ 8) (sq_nonneg b)))]
  have hcube : (a / b) ^ (2 : ℕ) ≤ ((2 * b ^ (2 : ℕ) + a ^ (2 : ℕ)) / (3 * b ^ (2 : ℕ))) ^ (3 : ℕ) := by
    rw [div_pow, div_pow, div_le_div_iff (by positivity) (by positivity)]
    nlinarith [key, sq_nonneg b, sq_nonneg a, pow_pos hb 2, pow_pos hb 4, pow_pos hb 6]
  have hloglog : Real.log ((a / b) ^ (2 : ℕ)) ≤
      Real.log (((2 * b ^ (2 : ℕ) + a ^ (2 : ℕ)) / (3 * b ^ (2 : ℕ))) ^ (3 : ℕ)) :=
    Real.log_le_log (by positivity) hcube
  rw [Real.log_pow, Real.log_pow] at hloglog
  have hswap : Real.log (b / a) = -Real.log (a / b) := by
    rw [Real.log_div (ne_of_gt hb) (ne_of_gt ha), Real.log_div (ne_of_gt ha) (ne_of_gt hb)]
    ring
  rw [hswap]
  push_cast at hloglog
  linarith

/-! ## Engine state and iteration loop

`NMFbase.__init__` (lines 11–20) creates `self.loss = []` once per
engine; `NMFbase.__call__` (lines 22–31) stores the target, calls
`_reset` (lines 33–43, drawing fresh random `basis`/`activation` but
leaving `loss` untouched) and then `update(iteration)`.  Every engine's
`update` runs `iteration` times: `update_once()` followed by appending
the scalar loss of the freshly updated state.  Python `assert`s and
`raise ValueError` inside `update_once` are modelled by `Option`:
`none` is a raised exception. -/

/-- Mutable per-engine state: basis, activation and the loss trace. -/
structure RState (bins bas frames : Nat) where
  basis : Mat bins bas
  activation : Mat bas frames
  loss : List ℝ

/-- The shared iteration skeleton of `NMFbase.update` (lines 45–53) and
its per-engine overrides: `iteration` times, run the (possibly failing)
step and append one scalar loss computed from the updated state. -/
def appendLoopO {bins bas frames : Nat}
    (step : RState bins bas frames → Option (RState bins bas frames))
    (lossOf : RState bins bas frames → ℝ) :
    Nat → RState bins bas frames → Option (RState bins bas frames)
  | 0, s => some s
  | n + 1, s =>
    match step s with
    | none => none
    | some s' => appendLoopO step lossOf n ⟨s'.basis, s'.activation, s'.loss ++ [lossOf s']⟩

lemma appendLoopO_length {bins bas frames : Nat}
    {step : RState bins bas frames → Option (RState bins bas frames)}
    {lossOf : RState bins bas frames → ℝ}
    (hkeep : ∀ s s', step s = some s' → s'.loss = s.loss) :
    ∀ n (s r : RState bins bas frames), appendLoopO step lossOf n s = some r →
      r.loss.length = s.loss.length + n := by
  intro n
  induction n with
  | zero =>
    intro s r h
    cases h
    rfl
  | succ n ih =>
    intro s r h
    unfold appendLoopO at h
    cases hs : step s with
    | none => rw [hs] at h; cases h
    | some s' =>
      rw [hs] at h
      have := ih _ _ h
      simp only [List.length_append, List.length_singleton] at this
      rw [hkeep s s' hs] at this
      omega

lemma appendLoopO_nonneg {bins bas frames : Nat}
    {step : RState bins bas frames → Option (RState bins bas frames)}
    {lossOf : RState bins bas frames → ℝ}
    (Inv : Mat bins bas → Mat bas frames → Prop)
    (hkeep : ∀ s s', step s = some s' → s'.loss = s.loss)
    (hstep : ∀ s s', step s = some s' → Inv s.basis s.activation →
      Inv s'.basis s'.activation)
    (hloss : ∀ s : RState bins bas frames, Inv s.basis s.activation → 0 ≤ lossOf s) :
    ∀ n (s r : RState bins bas frames), appendLoopO step lossOf n s = some r →
      Inv s.basis s.activation → (∀ x ∈ s.loss, 0 ≤ x) → ∀ x ∈ r.loss, 0 ≤ x := by
  intro n
  induction n with
  | zero =>
    intro s r h hInv hold
    cases h
    exact hold
  | succ n ih =>
    intro s r h hInv hold
    unfold appendLoopO at h
    cases hs : step s with
    | none => rw [hs] at h; cases h
    | some s' =>
      rw [hs] at h
      have hInv' := hstep s s' hs hInv
      refine ih _ _ h hInv' ?_
      intro x hx
      rw [hkeep s s' hs] at hx
      rcases List.mem_append.mp hx with hx | hx
      · exact hold x hx
      · rw [List.mem_singleton.mp hx]
        exact hloss s' hInv'

/-! ## Engine configurations and constructors

Python constructors (`EUCNMF.__init__` lines 151–163, `KLNMF.__init__`
lines 210–222, `ISNMF.__init__` lines 269–281, `tNMF.__init__` lines
359–378, `CauchyNMF.__init__` lines 431–447) store hyperparameters and
run `assert`s; a failing `assert` is modelled as `none`. -/

/-- Hyperparameters of the real NMF engines. -/
structure NMFCfg where
  n_basis : Nat
  domain : ℝ
  algorithm : String
  eps : ℝ

/-- Hyperparameters of `tNMF`, with degrees of freedom `nu`. -/
structure TCfg where
  n_basis : Nat
  nu : ℝ
  domain : ℝ
  algorithm : String
  eps : ℝ

/-- `EUCNMF.__init__` (lines 151–163): asserts `1 <= domain <= 2`, then
`algorithm == 'mm'`. -/
def EUCNMF.mk (n_basis : Nat) (domain : ℝ) (algorithm : String) (eps : ℝ) :
    Option NMFCfg :=
  if 1 ≤ domain ∧ domain ≤ 2 then
    if algorithm = "mm" then some ⟨n_basis, domain, algorithm, eps⟩ else none
  else none

/-- `KLNMF.__init__` (lines 210–222): the same two asserts. -/
def KLNMF.mk (n_basis : Nat) (domain : ℝ) (algorithm : String) (eps : ℝ) :
    Option NMFCfg :=
  if 1 ≤ domain ∧ domain ≤ 2 then
    if algorithm = "mm" then some ⟨n_basis, domain, algorithm, eps⟩ else none
  else none

/-- `ISNMF.__init__` (lines 269–281): asserts only `1 <= domain <= 2`;
the algorithm string is stored unchecked. -/
def ISNMF.mk (n_basis : Nat) (domain : ℝ) (algorithm : String) (eps : ℝ) :
    Option NMFCfg :=
  if 1 ≤ domain ∧ domain ≤ 2 then some ⟨n_basis, domain, algorithm, eps⟩ else none

/-- `tNMF.__init__` (lines 359–378): asserts only `1 <= domain <= 2`. -/
def tNMF.mk (n_basis : Nat) (nu domain : ℝ) (algorithm : String) (eps : ℝ) :
    Option TCfg :=
  if 1 ≤ domain ∧ domain ≤ 2 then some ⟨n_basis, nu, domain, algorithm, eps⟩ else none

/-- `CauchyNMF.__init__` (lines 431–447): asserts `domain == 2`; the
algorithm string is stored unchecked. -/
def CauchyNMF.mk (n_basis : Nat) (domain : ℝ) (algorithm : String) (eps : ℝ) :
    Option NMFCfg :=
  if domain = 2 then some ⟨n_basis, domain, algorithm, eps⟩ else none

/-! ## Engine steps and runs -/

/-- `EUCNMF.update_once` (lines 176–180): dispatch on the algorithm
string; anything but `'mm'` raises. -/
def EUCNMF.stepO {bins bas frames : Nat} (cfg : NMFCfg) (target : Mat bins frames)
    (s : RState bins bas frames) : Option (RState bins bas frames) :=
  if cfg.algorithm = "mm" then
    some ⟨(EUCNMF.update_once_mm target cfg.domain cfg.eps s.basis s.activation).1,
          (EUCNMF.update_once_mm target cfg.domain cfg.eps s.basis s.activation).2,
          s.loss⟩
  else none

/-- The scalar appended by `EUCNMF.update` (lines 165–174): the criterion
`(target - input)**2` (line 163) evaluated at `(T @ V) ** (2/domain)`,
summed over all cells. -/
def EUCNMF.loss_entry {bins bas frames : Nat} (cfg : NMFCfg) (target : Mat bins frames)
    (s : RState bins bas frames) : ℝ :=
  ∑ b, ∑ t,
    (target b t - mmul s.basis s.activation b t ^ ((2 : ℝ) / cfg.domain)) ^ (2 : ℕ)

/-- `EUCNMF.__call__` (lines 22–31): store the target, redraw
basis/activation (the draws `rT`, `rV` are parameters), keep the loss
trace, then iterate. -/
def EUCNMF.run {bins bas frames : Nat} (cfg : NMFCfg) (s : RState bins bas frames)
    (target : Mat bins frames) (rT : Mat bins bas) (rV : Mat bas frames)
    (iteration : Nat) : Option (RState bins bas frames) :=
  appendLoopO (EUCNMF.stepO cfg target) (EUCNMF.loss_entry cfg target) iteration
    ⟨rT, rV, s.loss⟩

/-- `KLNMF.update_once` (lines 235–239). -/
def KLNMF.stepO {bins bas frames : Nat} (cfg : NMFCfg) (target : Mat bins frames)
    (s : RState bins bas frames) : Option (RState bins bas frames) :=
  if cfg.algorithm = "mm" then
    some ⟨(KLNMF.update_once_mm target cfg.domain cfg.eps s.basis s.activation).1,
          (KLNMF.update_once_mm target cfg.domain cfg.eps s.basis s.activation).2,
          s.loss⟩
  else none

/-- The scalar appended by `KLNMF.update` (lines 224–233). -/
def KLNMF.loss_entry {bins bas frames : Nat} (cfg : NMFCfg) (target : Mat bins frames)
    (s : RState bins bas frames) : ℝ :=
  ∑ b, ∑ t,
    gklDiv cfg.eps (mmul s.basis s.activation b t ^ ((2 : ℝ) / cfg.domain)) (target b t)

/-- `KLNMF.__call__`. -/
def KLNMF.run {bins bas frames : Nat} (cfg : NMFCfg) (s : RState bins bas frames)
    (target : Mat bins frames) (rT : Mat bins bas) (rV : Mat bas frames)
    (iteration : Nat) : Option (RState bins bas frames) :=
  appendLoopO (KLNMF.stepO cfg target) (KLNMF.loss_entry cfg target) iteration
    ⟨rT, rV, s.loss⟩

/-- `ISNMF.update_once` (lines 294–300): `'mm'` dispatches directly;
`'me'` first hits the in-body `assert domain == 2` of `update_once_me`
(line 334); any other string raises `ValueError`. -/
def ISNMF.stepO {bins bas frames : Nat} (cfg : NMFCfg) (target : Mat bins frames)
    (s : RState bins bas frames) : Option (RState bins bas frames) :=
  if cfg.algorithm = "mm" then
    some ⟨(ISNMF.update_once_mm target cfg.domain cfg.eps s.basis s.activation).1,
          (ISNMF.update_once_mm target cfg.domain cfg.eps s.basis s.activation).2,
          s.loss⟩
  else if cfg.algorithm = "me" then
    if cfg.domain = 2 then
      some ⟨(ISNMF.update_once_me target cfg.domain cfg.eps s.basis s.activation).1,
            (ISNMF.update_once_me target cfg.domain cfg.eps s.basis s.activation).2,
            s.loss⟩
    else none
  else none

/-- The scalar appended by `ISNMF.update` (lines 283–292). -/
def ISNMF.loss_entry {bins bas frames : Nat} (cfg : NMFCfg) (target : Mat bins frames)
    (s : RState bins bas frames) : ℝ :=
  ∑ b, ∑ t,
    isDiv cfg.eps (mmul s.basis s.activation b t ^ ((2 : ℝ) / cfg.domain)) (target b t)

/-- `ISNMF.__call__`. -/
def ISNMF.run {bins bas frames : Nat} (cfg : NMFCfg) (s : RState bins bas frames)
    (target : Mat bins frames) (rT : Mat bins bas) (rV : Mat bas frames)
    (iteration : Nat) : Option (RState bins bas frames) :=
  appendLoopO (ISNMF.stepO cfg target) (ISNMF.loss_entry cfg target) iteration
    ⟨rT, rV, s.loss⟩

/-- `tNMF.update_once` (lines 391–395) plus the in-body
`assert domain == 2` of `update_once_mm` (line 403). -/
def tNMF.stepO {bins bas frames : Nat} (cfg : TCfg) (target : Mat bins frames)
    (s : RState bins bas frames) : Option (RState bins bas frames) :=
  if cfg.algorithm = "mm" then
    if cfg.domain = 2 then
      some ⟨(tNMF.update_once_mm target cfg.nu cfg.domain cfg.eps s.basis s.activation).1,
            (tNMF.update_once_mm target cfg.nu cfg.domain cfg.eps s.basis s.activation).2,
            s.loss⟩
    else none
  else none

/-- The scalar appended by `tNMF.update` (lines 380–389). -/
def tNMF.loss_entry {bins bas frames : Nat} (cfg : TCfg) (target : Mat bins frames)
    (s : RState bins bas frames) : ℝ :=
  ∑ b, ∑ t,
    tDiv cfg.nu cfg.eps (mmul s.basis s.activation b t ^ ((2 : ℝ) / cfg.domain))
      (target b t)

/-- `tNMF.__call__`. -/
def tNMF.run {bins bas frames : Nat} (cfg : TCfg) (s : RState bins bas frames)
    (target : Mat bins frames) (rT : Mat bins bas) (rV : Mat bas frames)
    (iteration : Nat) : Option (RState bins bas frames) :=
  appendLoopO (tNMF.stepO cfg target) (tNMF.loss_entry cfg target) iteration
    ⟨rT, rV, s.loss⟩

/-- `CauchyNMF.update_once` (lines 449–459) plus the in-body
`assert domain == 2` of each variant. -/
def CauchyNMF.stepO {bins bas frames : Nat} (cfg : NMFCfg) (target : Mat bins frames)
    (s : RState bins bas frames) : Option (RState bins bas frames) :=
  if cfg.algorithm = "naive-multipricative" then
    if cfg.domain = 2 then
      some ⟨(CauchyNMF.update_once_naive target cfg.eps s.basis s.activation).1,
            (CauchyNMF.update_once_naive target cfg.eps s.basis s.activation).2, s.loss⟩
    else none
  else if cfg.algorithm = "mm" then
    if cfg.domain = 2 then
      some ⟨(CauchyNMF.update_once_mm target cfg.eps s.basis s.activation).1,
            (CauchyNMF.update_once_mm target cfg.eps s.basis s.activation).2, s.loss⟩
    else none
  else if cfg.algorithm = "me" then
    if cfg.domain = 2 then
      some ⟨(CauchyNMF.update_once_me target cfg.eps s.basis s.activation).1,
            (CauchyNMF.update_once_me target cfg.eps s.basis s.activation).2, s.loss⟩
    else none
  else if cfg.algorithm = "mm_fast" then
    if cfg.domain = 2 then
      some ⟨(CauchyNMF.update_once_mm_fast target cfg.eps s.basis s.activation).1,
            (CauchyNMF.update_once_mm_fast target cfg.eps s.basis s.activation).2, s.loss⟩
    else none
  else none

/-- The scalar appended for `CauchyNMF` by the inherited `NMFbase.update`
(lines 45–53): the criterion applied to the *unexponentiated* product
`T @ V`. -/
def CauchyNMF.loss_entry {bins bas frames : Nat} (cfg : NMFCfg) (target : Mat bins frames)
    (s : RState bins bas frames) : ℝ :=
  ∑ b, ∑ t, cauchyDiv cfg.eps (mmul s.basis s.activation b t) (target b t)

/-- `CauchyNMF.__call__`. -/
def CauchyNMF.run {bins bas frames : Nat} (cfg : NMFCfg) (s : RState bins bas frames)
    (target : Mat bins frames) (rT : Mat bins bas) (rV : Mat bas frames)
    (iteration : Nat) : Option (RState bins bas frames) :=
  appendLoopO (CauchyNMF.stepO cfg target) (CauchyNMF.loss_entry cfg target) iteration
    ⟨rT, rV, s.loss⟩

/-! ## Per-engine step facts: updates never touch the loss trace and
preserve non-negativity; appended loss entries are non-negative. -/

lemma euc_stepO_keep {bins bas frames : Nat} (cfg : NMFCfg) (target : Mat bins frames)
    (s s' : RState bins bas frames) (h : EUCNMF.stepO cfg target s = some s') :
    s'.loss = s.loss := by
  unfold EUCNMF.stepO at h
  split at h
  · cases h; rfl
  · cases h

lemma euc_stepO_nonneg {bins bas frames : Nat} {cfg : NMFCfg}
    {target : Mat bins frames} (htgt : Nonneg target) (s s' : RState bins bas frames)
    (h : EUCNMF.stepO cfg target s = some s')
    (hTV : Nonneg s.basis ∧ Nonneg s.activation) :
    Nonneg s'.basis ∧ Nonneg s'.activation := by
  unfold EUCNMF.stepO at h
  split at h
  · cases h
    exact euc_update_once_mm_nonneg htgt hTV.1 hTV.2 cfg.domain cfg.eps
  · cases h

lemma kl_stepO_keep {bins bas frames : Nat} (cfg : NMFCfg) (target : Mat bins frames)
    (s s' : RState bins bas frames) (h : KLNMF.stepO cfg target s = some s') :
    s'.loss = s.loss := by
  unfold KLNMF.stepO at h
  split at h
  · cases h; rfl
  · cases h

lemma kl_stepO_nonneg {bins bas frames : Nat} {cfg : NMFCfg}
    {target : Mat bins frames} (htgt : Nonneg target) (s s' : RState bins bas frames)
    (h : KLNMF.stepO cfg target s = some s')
    (hTV : Nonneg s.basis ∧ Nonneg s.activation) :
    Nonneg s'.basis ∧ Nonneg s'.activation := by
  unfold KLNMF.stepO at h
  split at h
  · cases h
    exact kl_update_once_mm_nonneg htgt hTV.1 hTV.2 cfg.domain cfg.eps
  · cases h

lemma is_stepO_keep {bins bas frames : Nat} (cfg : NMFCfg) (target : Mat bins frames)
    (s s' : RState bins bas frames) (h : ISNMF.stepO cfg target s = some s') :
    s'.loss = s.loss := by
  unfold ISNMF.stepO at h
  split at h
  · cases h; rfl
  · split at h
    · split at h
      · cases h; rfl
      · cases h
    · cases h

lemma is_stepO_nonneg {bins bas frames : Nat} {cfg : NMFCfg}
    {target : Mat bins frames} (htgt : Nonneg target) (s s' : RState bins bas frames)
    (h : ISNMF.stepO cfg target s = some s')
    (hTV : Nonneg s.basis ∧ Nonneg s.activation) :
    Nonneg s'.basis ∧ Nonneg s'.activation := by
  unfold ISNMF.stepO at h
  split at h
  · cases h
    exact is_update_once_mm_nonneg htgt hTV.1 hTV.2 cfg.domain cfg.eps
  · split at h
    · split at h
      · cases h
        exact is_update_once_me_nonneg htgt hTV.1 hTV.2 cfg.domain cfg.eps
      · cases h
    · cases h

lemma t_stepO_keep {bins bas frames : Nat} (cfg : TCfg) (target : Mat bins frames)
    (s s' : RState bins bas frames) (h : tNMF.stepO cfg target s = some s') :
    s'.loss = s.loss := by
  unfold tNMF.stepO at h
  split at h
  · split at h
    · cases h; rfl
    · cases h
  · cases h

lemma t_stepO_nonneg {bins bas frames : Nat} {cfg : TCfg}
    {target : Mat bins frames} (s s' : RState bins bas frames)
    (h : tNMF.stepO cfg target s = some s')
    (hTV : Nonneg s.basis ∧ Nonneg s.activation) :
    Nonneg s'.basis ∧ Nonneg s'.activation := by
  unfold tNMF.stepO at h
  split at h
  · split at h
    · cases h
      exact t_update_once_mm_nonneg hTV.1 hTV.2 cfg.nu cfg.domain cfg.eps
    · cases h
  · cases h

lemma cauchy_stepO_keep {bins bas frames : Nat} (cfg : NMFCfg)
    (target : Mat bins frames) (s s' : RState bins bas frames)
    (h : CauchyNMF.stepO cfg target s = some s') : s'.loss = s.loss := by
  unfold CauchyNMF.stepO at h
  split at h
  · split at h
    · cases h; rfl
    · cases h
  · split at h
    · split at h
      · cases h; rfl
      · cases h
    · split at h
      · split at h
        · cases h; rfl
        · cases h
      · split at h
        · split at h
          · cases h; rfl
          · cases h
        · cases h

lemma cauchy_stepO_nonneg {bins bas frames : Nat} {cfg : NMFCfg}
    {target : Mat bins frames} (htgt : Nonneg target) (s s' : RState bins bas frames)
    (h : CauchyNMF.stepO cfg target s = some s')
    (hTV : Nonneg s.basis ∧ Nonneg s.activation) :
    Nonneg s'.basis ∧ Nonneg s'.activation := by
  unfold CauchyNMF.stepO at h
  split at h
  · split at h
    · cases h
      exact cauchy_update_once_naive_nonneg htgt hTV.1 hTV.2 cfg.eps
    · cases h
  · split at h
    · split at h
      · cases h
        exact cauchy_update_once_mm_nonneg hTV.1 hTV.2 cfg.eps
      · cases h
    · split at h
      · split at h
        · cases h
          exact cauchy_update_once_me_nonneg htgt hTV.1 hTV.2 cfg.eps
        · cases h
      · split at h
        · split at h
          · cases h
            exact cauchy_update_once_mm_fast_nonneg hTV.1 hTV.2 cfg.eps
          · cases h
        · cases h

lemma euc_loss_entry_nonneg {bins bas frames : Nat} (cfg : NMFCfg)
    (target : Mat bins frames) (s : RState bins bas frames) :
    0 ≤ EUCNMF.loss_entry cfg target s := by
  unfold EUCNMF.loss_entry
  exact Finset.sum_nonneg fun b _ => Finset.sum_nonneg fun t _ => sq_nonneg _

lemma kl_loss_entry_nonneg {bins bas frames : Nat} {cfg : NMFCfg}
    {target : Mat bins frames} (htgt : Nonneg target) (heps : 0 < cfg.eps)
    (s : RState bins bas frames) (hT : Nonneg s.basis) (hV : Nonneg s.activation) :
    0 ≤ KLNMF.loss_entry cfg target s := by
  unfold KLNMF.loss_entry
  refine Finset.sum_nonneg fun b _ => Finset.sum_nonneg fun t _ => ?_
  exact gklDiv_nonneg (Real.rpow_nonneg (mmul_nonneg hT hV b t) _) (htgt b t) heps

lemma is_loss_entry_nonneg {bins bas frames : Nat} {cfg : NMFCfg}
    {target : Mat bins frames} (htgt : Nonneg target) (heps : 0 < cfg.eps)
    (s : RState bins bas frames) (hT : Nonneg s.basis) (hV : Nonneg s.activation) :
    0 ≤ ISNMF.loss_entry cfg target s := by
  unfold ISNMF.loss_entry
  refine Finset.sum_nonneg fun b _ => Finset.sum_nonneg fun t _ => ?_
  exact isDiv_nonneg (Real.rpow_nonneg (mmul_nonneg hT hV b t) _) (htgt b t) heps

lemma cauchy_loss_entry_nonneg {bins bas frames : Nat} {cfg : NMFCfg}
    {target : Mat bins frames} (htgt : Nonneg target) (heps : 0 < cfg.eps)
    (s : RState bins bas frames) (hT : Nonneg s.basis) (hV : Nonneg s.activation) :
    0 ≤ CauchyNMF.loss_entry cfg target s := by
  unfold CauchyNMF.loss_entry
  refine Finset.sum_nonneg fun b _ => Finset.sum_nonneg fun t _ => ?_
  exact cauchyDiv_nonneg (mmul_nonneg hT hV b t) (htgt b t) heps

/-! ## ComplexEUCNMF (nmf.py lines 597–676)

Only the pieces the claims touch are embedded: the loss scalar appended
by `ComplexEUCNMF.update` (lines 614–622) and `update_beta` (lines
669–676).  The target is a complex matrix, `phase` a real tensor of
angles. -/

/-- The scalar appended by `ComplexEUCNMF.update` (lines 614–622): the
code forms `TVPhi = Σ_k basis ⊗ activation ⊗ phase` — multiplying by the
*raw phase angles* — and applies the criterion `abs(input - target)**2`
(line 605). -/
def ComplexEUCNMF.loss_entry {bins bas frames : Nat}
    (target : Fin bins → Fin frames → ℂ) (T : Mat bins bas) (V : Mat bas frames)
    (Phi : Fin bins → Fin bas → Fin frames → ℝ) : ℝ :=
  ∑ b, ∑ t,
    Complex.abs (((∑ k, T b k * V k t * Phi b k t : ℝ) : ℂ) - target b t) ^ (2 : ℕ)

/-- Modelled from the spec: the loss the spec prescribes for the Complex
NMF engine — the squared magnitude between the target and the full
complex reconstruction `Σ_k T_k ⊗ V_k ⊗ exp(iΦ_k)`, summed over all
(bin, frame) cells. -/
def ComplexEUCNMF.loss_spec {bins bas frames : Nat}
    (target : Fin bins → Fin frames → ℂ) (T : Mat bins bas) (V : Mat bas frames)
    (Phi : Fin bins → Fin bas → Fin frames → ℝ) : ℝ :=
  ∑ b, ∑ t,
    Complex.abs (target b t -
      ∑ k, ((T b k * V k t : ℝ) : ℂ) * Complex.exp (Complex.I * (Phi b k t : ℝ))) ^ (2 : ℕ)

/-- `ComplexEUCNMF.update_beta` (lines 669–676): the per-component share
`T_k ⊗ V_k` of the clipped component sum, per (bin, frame) cell. -/
def ComplexEUCNMF.update_beta {bins bas frames : Nat} (eps : ℝ)
    (T : Mat bins bas) (V : Mat bas frames) :
    Fin bins → Fin bas → Fin frames → ℝ :=
  fun b k t =>
    T b k * V k t /
      (if (∑ x, T b x * V x t) < eps then eps else ∑ x, T b x * V x t)

/-! ## MultichannelISNMF (nmf.py lines 678–815)

The claims touch `_reset` (lines 705–728): warm-start reuse of
`spatial`/`basis`/`activation` attributes when they already exist, and
identity-matrix setup of the spatial tensor otherwise.  Attributes that
may not yet exist are modelled with `Option`. -/

/-- Engine-owned state of `MultichannelISNMF`: attributes that exist
only after a first `_reset` are `Option`-valued, mirroring `hasattr`. -/
structure MCState (bins bas frames ch : Nat) where
  spatial : Option (Fin bins → Fin bas → Fin ch → Fin ch → ℂ)
  basis : Option (Mat bins bas)
  activation : Option (Mat bas frames)

/-- `np.tile(np.eye(n_channels), reps=(n_bins, n_basis, 1, 1))` (lines
717–718): one identity matrix per (bin, basis) pair. -/
def MultichannelISNMF.identitySpatial (bins bas ch : Nat) :
    Fin bins → Fin bas → Fin ch → Fin ch → ℂ :=
  fun _ _ c c' => if c = c' then 1 else 0

/-- `MultichannelISNMF._reset` (lines 705–728): each of the three
tensors is freshly created only when the attribute does not yet exist
(`hasattr`), otherwise the existing value is kept (numpy `.copy()` is
the identity in this pure model).  `rT`, `rV` are the
`np.random.rand` draws. -/
def MultichannelISNMF.reset {bins bas frames ch : Nat}
    (s : MCState bins bas frames ch) (rT : Mat bins bas) (rV : Mat bas frames) :
    MCState bins bas frames ch :=
  { spatial := some (match s.spatial with
      | none => MultichannelISNMF.identitySpatial bins bas ch
      | some H => H),
    basis := some (match s.basis with
      | none => rT
      | some T => T),
    activation := some (match s.activation with
      | none => rV
      | some V => V) }

/-! ## Concrete inputs for witnesses and counterexamples -/

/-- The all-zero matrix. -/
def zmat (m n : Nat) : Mat m n := fun _ _ => 0

/-- The all-one matrix. -/
def omat (m n : Nat) : Mat m n := fun _ _ => 1

lemma zmat_nonneg (m n : Nat) : Nonneg (zmat m n) := fun _ _ => le_refl 0

lemma omat_nonneg (m n : Nat) : Nonneg (omat m n) := fun _ _ => zero_le_one

lemma appendLoopO_zero {bins bas frames : Nat}
    (step : RState bins bas frames → Option (RState bins bas frames))
    (lossOf : RState bins bas frames → ℝ) (s : RState bins bas frames) :
    appendLoopO step lossOf 0 s = some s := rfl

lemma appendLoopO_succ {bins bas frames : Nat}
    (step : RState bins bas frames → Option (RState bins bas frames))
    (lossOf : RState bins bas frames → ℝ) (n : Nat) (s : RState bins bas frames) :
    appendLoopO step lossOf (n + 1) s =
      match step s with
      | none => none
      | some s' => appendLoopO step lossOf n ⟨s'.basis, s'.activation, s'.loss ++ [lossOf s']⟩ :=
  rfl

/-! ## Claims -/

/-- Claim C1: for every real NMF engine (Euclidean, KL, Itakura-Saito,
Student-t, Cauchy) with a supported configuration (domain in `[1,2]`,
the fixed `domain = 2` where an update rule demands it, non-negative
degrees of freedom, positive `eps`), if the target and the current basis
and activation are elementwise non-negative then after every update rule
of every engine the basis and activation are still elementwise
non-negative. -/
theorem claim_C1_nonneg_preserved {bins bas frames : Nat}
    (target : Mat bins frames) (T : Mat bins bas) (V : Mat bas frames)
    (domain eps nu : ℝ)
    (htgt : Nonneg target) (hT : Nonneg T) (hV : Nonneg V)
    (hdom : 1 ≤ domain ∧ domain ≤ 2) (heps : 0 < eps) (hnu : 0 ≤ nu) :
    (Nonneg (EUCNMF.update_once_mm target domain eps T V).1 ∧
      Nonneg (EUCNMF.update_once_mm target domain eps T V).2) ∧
    (Nonneg (KLNMF.update_once_mm target domain eps T V).1 ∧
      Nonneg (KLNMF.update_once_mm target domain eps T V).2) ∧
    (Nonneg (ISNMF.update_once_mm target domain eps T V).1 ∧
      Nonneg (ISNMF.update_once_mm target domain eps T V).2) ∧
    (Nonneg (ISNMF.update_once_me target 2 eps T V).1 ∧
      Nonneg (ISNMF.update_once_me target 2 eps T V).2) ∧
    (Nonneg (tNMF.update_once_mm target nu 2 eps T V).1 ∧
      Nonneg (tNMF.update_once_mm target nu 2 eps T V).2) ∧
    (Nonneg (CauchyNMF.update_once_naive target eps T V).1 ∧
      Nonneg (CauchyNMF.update_once_naive target eps T V).2) ∧
    (Nonneg (CauchyNMF.update_once_mm target eps T V).1 ∧
      Nonneg (CauchyNMF.update_once_mm target eps T V).2) ∧
    (Nonneg (CauchyNMF.update_once_me target eps T V).1 ∧
      Nonneg (CauchyNMF.update_once_me target eps T V).2) ∧
    (Nonneg (CauchyNMF.update_once_mm_fast target eps T V).1 ∧
      Nonneg (CauchyNMF.update_once_mm_fast target eps T V).2) :=
  ⟨euc_update_once_mm_nonneg htgt hT hV domain eps,
   kl_update_once_mm_nonneg htgt hT hV domain eps,
   is_update_once_mm_nonneg htgt hT hV domain eps,
   is_update_once_me_nonneg htgt hT hV 2 eps,
   t_update_once_mm_nonneg hT hV nu 2 eps,
   cauchy_update_once_naive_nonneg htgt hT hV eps,
   cauchy_update_once_mm_nonneg hT hV eps,
   cauchy_update_once_me_nonneg htgt hT hV eps,
   cauchy_update_once_mm_fast_nonneg hT hV eps⟩

/-- Witness for C1 at a concrete supported configuration: zero target,
zero basis and activation, `domain = 2`, `eps = 1`, `nu = 1`. -/
theorem claim_C1_nonneg_preserved_check :
    Nonneg (EUCNMF.update_once_mm (zmat 1 1) 2 1 (zmat 1 1) (zmat 1 1)).1 ∧
    Nonneg (CauchyNMF.update_once_me (zmat 1 1) 1 (zmat 1 1) (zmat 1 1)).2 :=
  ⟨(claim_C1_nonneg_preserved (zmat 1 1) (zmat 1 1) (zmat 1 1) 2 1 1
      (zmat_nonneg 1 1) (zmat_nonneg 1 1) (zmat_nonneg 1 1)
      ⟨one_le_two, le_refl 2⟩ one_pos zero_le_one).1.1,
   ((claim_C1_nonneg_preserved (zmat 1 1) (zmat 1 1) (zmat 1 1) 2 1 1
      (zmat_nonneg 1 1) (zmat_nonneg 1 1) (zmat_nonneg 1 1)
      ⟨one_le_two, le_refl 2⟩ one_pos zero_le_one).2.2.2.2.2.2.2.1).2⟩

/-- Claim C7: every real NMF engine constructor rejects a `domain`
outside `[1, 2]` at construction: the constructor returns `none`, so no
engine state exists and no update can run.  (`CauchyNMF` asserts the
stronger `domain == 2`, which also rejects everything outside `[1,2]`.) -/
theorem claim_C7_domain_checked_at_construction (n_basis : Nat) (domain : ℝ)
    (algorithm : String) (eps nu : ℝ) (h : ¬(1 ≤ domain ∧ domain ≤ 2)) :
    EUCNMF.mk n_basis domain algorithm eps = none ∧
    KLNMF.mk n_basis domain algorithm eps = none ∧
    ISNMF.mk n_basis domain algorithm eps = none ∧
    tNMF.mk n_basis nu domain algorithm eps = none ∧
    CauchyNMF.mk n_basis domain algorithm eps = none := by
  refine ⟨?_, ?_, ?_, ?_, ?_⟩
  · unfold EUCNMF.mk; rw [if_neg h]
  · unfold KLNMF.mk; rw [if_neg h]
  · unfold ISNMF.mk; rw [if_neg h]
  · unfold tNMF.mk; rw [if_neg h]
  · unfold CauchyNMF.mk
    rw [if_neg]
    intro h2
    subst h2
    exact h ⟨one_le_two, le_refl 2⟩

/-- Witness for C7 at the spec's scenario: an Euclidean engine with
`domain = 3` (together with the other four constructors). -/
theorem claim_C7_domain_checked_at_construction_check :
    EUCNMF.mk 2 3 "mm" 1 = none ∧ CauchyNMF.mk 2 3 "mm" 1 = none :=
  ⟨(claim_C7_domain_checked_at_construction 2 3 "mm" 1 1
      (fun hc => absurd hc.2 (by norm_num))).1,
   (claim_C7_domain_checked_at_construction 2 3 "mm" 1 1
      (fun hc => absurd hc.2 (by norm_num))).2.2.2.2⟩

/-- Claim C10: after `update_beta` with elementwise non-negative basis
and activation (and the engine's positive `eps`), every entry of `Beta`
lies in `[0, 1]`, and in every (bin, frame) cell whose component sum
`Σ_k T[b,k]·V[k,t]` is at least `eps` the `Beta` entries sum to exactly
`1` over the basis axis. -/
theorem claim_C10_beta_simplex {bins bas frames : Nat} (eps : ℝ)
    (T : Mat bins bas) (V : Mat bas frames)
    (hT : Nonneg T) (hV : Nonneg V) (heps : 0 < eps) :
    (∀ b k t, 0 ≤ ComplexEUCNMF.update_beta eps T V b k t ∧
      ComplexEUCNMF.update_beta eps T V b k t ≤ 1) ∧
    (∀ b t, eps ≤ ∑ x, T b x * V x t →
      ∑ k, ComplexEUCNMF.update_beta eps T V b k t = 1) := by
  constructor
  · intro b k t
    unfold ComplexEUCNMF.update_beta
    have hterm : 0 ≤ T b k * V k t := mul_nonneg (hT b k) (hV k t)
    have hle : T b k * V k t ≤ ∑ x, T b x * V x t :=
      Finset.single_le_sum (fun x _ => mul_nonneg (hT b x) (hV x t)) (Finset.mem_univ k)
    split_ifs with hS
    · exact ⟨div_nonneg hterm (le_of_lt heps),
        (div_le_one heps).mpr (le_of_lt (lt_of_le_of_lt hle hS))⟩
    · have hSpos : 0 < ∑ x, T b x * V x t := lt_of_lt_of_le heps (not_lt.mp hS)
      exact ⟨div_nonneg hterm (le_of_lt hSpos), (div_le_one hSpos).mpr hle⟩
  · intro b t hge
    unfold ComplexEUCNMF.update_beta
    simp only [if_neg (not_lt.mpr hge)]
    rw [← Finset.sum_div]
    exact div_self (ne_of_gt (lt_of_lt_of_le heps hge))

/-- Witness for C10 at the all-one 1×1 basis/activation and `eps = 1`:
`Beta = 1` lies in `[0,1]` and the basis-axis sum is exactly `1`. -/
theorem claim_C10_beta_simplex_check :
    (0 ≤ ComplexEUCNMF.update_beta 1 (omat 1 1) (omat 1 1) 0 0 0 ∧
      ComplexEUCNMF.update_beta 1 (omat 1 1) (omat 1 1) 0 0 0 ≤ 1) ∧
    ∑ k, ComplexEUCNMF.update_beta 1 (omat 1 1) (omat 1 1) 0 k 0 = 1 :=
  ⟨(claim_C10_beta_simplex 1 (omat 1 1) (omat 1 1)
      (omat_nonneg 1 1) (omat_nonneg 1 1) one_pos).1 0 0 0,
   (claim_C10_beta_simplex 1 (omat 1 1) (omat 1 1)
      (omat_nonneg 1 1) (omat_nonneg 1 1) one_pos).2 0 0
      (by simp [omat])⟩

/-- Claim C6: on a first call (`spatial`/`basis`/`activation` attributes
absent) `MultichannelISNMF._reset` creates the spatial tensor with every
(bin, basis) slice equal to the channels × channels identity matrix and
installs the random draws as basis and activation; a second `_reset` on
the resulting state keeps all three tensors unchanged (warm start) and
ignores the new random draws. -/
theorem claim_C6_warm_start {bins bas frames ch : Nat}
    (s : MCState bins bas frames ch) (rT rT' : Mat bins bas) (rV rV' : Mat bas frames)
    (hsp : s.spatial = none) (hba : s.basis = none) (hac : s.activation = none) :
    ((MultichannelISNMF.reset s rT rV).spatial =
        some (MultichannelISNMF.identitySpatial bins bas ch) ∧
      (∀ b k c c', MultichannelISNMF.identitySpatial bins bas ch b k c c' =
        if c = c' then 1 else 0) ∧
      (MultichannelISNMF.reset s rT rV).basis = some rT ∧
      (MultichannelISNMF.reset s rT rV).activation = some rV) ∧
    MultichannelISNMF.reset (MultichannelISNMF.reset s rT rV) rT' rV' =
      MultichannelISNMF.reset s rT rV := by
  refine ⟨⟨?_, fun b k c c' => rfl, ?_, ?_⟩, ?_⟩
  · unfold MultichannelISNMF.reset
    rw [hsp]
  · unfold MultichannelISNMF.reset
    rw [hba]
  · unfold MultichannelISNMF.reset
    rw [hac]
  · rfl

/-- Witness for C6 at a fresh engine state (all attributes absent) and
zero random draws. -/
theorem claim_C6_warm_start_check :
    (MultichannelISNMF.reset (⟨none, none, none⟩ : MCState 1 1 1 1)
        (zmat 1 1) (zmat 1 1)).spatial =
      some (MultichannelISNMF.identitySpatial 1 1 1) ∧
    MultichannelISNMF.reset
        (MultichannelISNMF.reset (⟨none, none, none⟩ : MCState 1 1 1 1)
          (zmat 1 1) (zmat 1 1)) (omat 1 1) (omat 1 1) =
      MultichannelISNMF.reset (⟨none, none, none⟩ : MCState 1 1 1 1)
        (zmat 1 1) (zmat 1 1) :=
  ⟨(claim_C6_warm_start (⟨none, none, none⟩ : MCState 1 1 1 1)
      (zmat 1 1) (omat 1 1) (zmat 1 1) (omat 1 1) rfl rfl rfl).1.1,
   (claim_C6_warm_start (⟨none, none, none⟩ : MCState 1 1 1 1)
      (zmat 1 1) (omat 1 1) (zmat 1 1) (omat 1 1) rfl rfl rfl).2⟩

/-- Modelled from the spec: the per-divergence loss formula of the real
NMF contract — the divergence applied to the exponentiated
reconstruction `(T @ V) ** (2/domain)` — instantiated for the Cauchy
divergence. -/
def CauchyNMF.loss_spec_formula {bins bas frames : Nat} (cfg : NMFCfg)
    (target : Mat bins frames) (s : RState bins bas frames) : ℝ :=
  ∑ b, ∑ t,
    cauchyDiv cfg.eps (mmul s.basis s.activation b t ^ ((2 : ℝ) / cfg.domain))
      (target b t)

/-- Claim C9: for every configuration the Cauchy constructor accepts,
the loss the inherited base-class loop logs (divergence of the
unexponentiated `T @ V`) equals the spec's per-divergence formula
(divergence of `(T @ V) ** (2/domain)`), because the constructor forces
`domain = 2` and hence `2/domain = 1`. -/
theorem claim_C9_cauchy_loss_agreement {bins bas frames : Nat}
    (n_basis : Nat) (domain : ℝ) (algorithm : String) (eps : ℝ) (cfg : NMFCfg)
    (hmk : CauchyNMF.mk n_basis domain algorithm eps = some cfg)
    (target : Mat bins frames) (s : RState bins bas frames) :
    CauchyNMF.loss_entry cfg target s = CauchyNMF.loss_spec_formula cfg target s := by
  unfold CauchyNMF.mk at hmk
  split at hmk
  · cases hmk
    rename_i hdom
    unfold CauchyNMF.loss_entry CauchyNMF.loss_spec_formula
    refine Finset.sum_congr rfl fun b _ => Finset.sum_congr rfl fun t _ => ?_
    have : ((2 : ℝ) / (⟨n_basis, domain, algorithm, eps⟩ : NMFCfg).domain) = 1 := by
      show (2 : ℝ) / domain = 1
      rw [hdom]
      norm_num
    rw [this, Real.rpow_one]
  · cases hmk

/-- Witness for C9 at the accepted configuration `domain = 2`,
`algorithm = 'mm'`, `eps = 1` and a concrete 1×1 state. -/
theorem claim_C9_cauchy_loss_agreement_check :
    CauchyNMF.loss_entry ⟨6, 2, "mm", 1⟩ (omat 1 1) ⟨omat 1 1, omat 1 1, []⟩ =
      CauchyNMF.loss_spec_formula ⟨6, 2, "mm", 1⟩ (omat 1 1) ⟨omat 1 1, omat 1 1, []⟩ :=
  claim_C9_cauchy_loss_agreement 6 2 "mm" 1 ⟨6, 2, "mm", 1⟩
    (by unfold CauchyNMF.mk; rw [if_pos rfl]) (omat 1 1) ⟨omat 1 1, omat 1 1, []⟩

/-- The 1×1 target with value 2 used to exhibit the Gauss–Seidel /
Jacobi difference. -/
def c8tgt : Mat 1 1 := fun _ _ => 2

/-- Claim C8: every real NMF update rule replaces the basis first and
then computes the activation update from the just-updated basis: each
`update_once_*` factors as the basis half followed by the activation
half applied to the new basis (Gauss–Seidel).  The final two conjuncts
exhibit a concrete input on which the activation computed from the
updated basis (value 1) differs from the Jacobi alternative computed
from the start-of-step basis (value 2), so the ordering is observable. -/
theorem claim_C8_gauss_seidel_ordering :
    (∀ (bins bas frames : Nat) (target : Mat bins frames) (domain eps : ℝ)
        (T : Mat bins bas) (V : Mat bas frames),
      EUCNMF.update_once_mm target domain eps T V =
        (EUCNMF.basis_step target domain eps T V,
         EUCNMF.activation_step target domain eps
           (EUCNMF.basis_step target domain eps T V) V) ∧
      KLNMF.update_once_mm target domain eps T V =
        (KLNMF.basis_step target domain eps T V,
         KLNMF.activation_step target domain eps
           (KLNMF.basis_step target domain eps T V) V) ∧
      ISNMF.update_once_mm target domain eps T V =
        (ISNMF.basis_step_mm target domain eps T V,
         ISNMF.activation_step_mm target domain eps
           (ISNMF.basis_step_mm target domain eps T V) V) ∧
      ISNMF.update_once_me target domain eps T V =
        (ISNMF.basis_step_me target domain eps T V,
         ISNMF.activation_step_me target domain eps
           (ISNMF.basis_step_me target domain eps T V) V) ∧
      CauchyNMF.update_once_naive target eps T V =
        (CauchyNMF.basis_step_naive target eps T V,
         CauchyNMF.activation_step_naive target eps
           (CauchyNMF.basis_step_naive target eps T V) V) ∧
      CauchyNMF.update_once_mm target eps T V =
        (CauchyNMF.basis_step_mm target eps T V,
         CauchyNMF.activation_step_mm target eps
           (CauchyNMF.basis_step_mm target eps T V) V) ∧
      CauchyNMF.update_once_me target eps T V =
        (CauchyNMF.basis_step_me target eps T V,
         CauchyNMF.activation_step_me target eps
           (CauchyNMF.basis_step_me target eps T V) V) ∧
      CauchyNMF.update_once_mm_fast target eps T V =
        (CauchyNMF.basis_step_mm_fast target eps T V,
         CauchyNMF.activation_step_mm_fast target eps
           (CauchyNMF.basis_step_mm_fast target eps T V) V)) ∧
    (∀ (bins bas frames : Nat) (target : Mat bins frames) (nu domain eps : ℝ)
        (T : Mat bins bas) (V : Mat bas frames),
      tNMF.update_once_mm target nu domain eps T V =
        (tNMF.basis_step target nu domain eps T V,
         tNMF.activation_step target nu domain eps
           (tNMF.basis_step target nu domain eps T V) V)) ∧
    (EUCNMF.update_once_mm c8tgt 2 (1/2) (omat 1 1) (omat 1 1)).2 0 0 = 1 ∧
    EUCNMF.activation_step c8tgt 2 (1/2) (omat 1 1) (omat 1 1) 0 0 = 2 := by
  refine ⟨fun _ _ _ _ _ _ _ _ => ⟨rfl, rfl, rfl, rfl, rfl, rfl, rfl, rfl⟩,
    fun _ _ _ _ _ _ _ _ _ => rfl, ?_, ?_⟩
  · simp only [EUCNMF.update_once_mm, EUCNMF.activation_step, EUCNMF.basis_step,
      mmul, transp, clipBelow, omat, c8tgt, Fin.sum_univ_one]
    norm_num
  · simp only [EUCNMF.activation_step, mmul, transp, clipBelow, omat, c8tgt,
      Fin.sum_univ_one]
    norm_num

/-- Concrete activation matrix `[[1/2, 2]]` separating the claim's
Euclidean update formula from the implemented one. -/
def c4V : Mat 1 2 := fun _ t => if t = 0 then 1/2 else 2

/-- Concrete all-one 1×2 target. -/
def c4tgt : Mat 1 2 := fun _ _ => 1

/-- Modelled from the claim's words (C4): the Euclidean basis update as
the claim states it — the powers taken of the raw product `T @ V`, and
the eps floor applied only to the denominator after the matrix
product. -/
def EUCNMF.claim_basis_formula {bins bas frames : Nat} (target : Mat bins frames)
    (domain eps : ℝ) (T : Mat bins bas) (V : Mat bas frames) : Mat bins bas :=
  fun i k =>
    T i k *
      (mmul (fun b t => target b t * mmul T V b t ^ ((2 - domain) / domain))
          (transp V) i k /
        clipBelow eps
          (mmul (fun b t => mmul T V b t ^ ((4 - domain) / domain))
            (transp V)) i k) ^ (domain / (4 - domain))

/-- Counterexample to C4 as stated: at `domain = 2`, `eps = 1`,
`T = [[1]]`, `V = [[1/2, 2]]`, `target = [[1, 1]]` the implemented
basis update gives `5/9` while the claim's formula gives `10/17`: the
code floors `T @ V` at `eps` *before* raising it to the powers, which
the claim's formula omits. -/
theorem claim_C4_counterexample :
    EUCNMF.basis_step c4tgt 2 1 (omat 1 1) c4V 0 0 = 5/9 ∧
    EUCNMF.claim_basis_formula c4tgt 2 1 (omat 1 1) c4V 0 0 = 10/17 ∧
    EUCNMF.basis_step c4tgt 2 1 (omat 1 1) c4V 0 0 ≠
      EUCNMF.claim_basis_formula c4tgt 2 1 (omat 1 1) c4V 0 0 := by
  refine ⟨?_, ?_, ?_⟩
  · simp only [EUCNMF.basis_step, mmul, transp, clipBelow, omat, c4V, c4tgt,
      Fin.sum_univ_two, Fin.sum_univ_one]
    norm_num
  · simp only [EUCNMF.claim_basis_formula, mmul, transp, clipBelow, omat, c4V, c4tgt,
      Fin.sum_univ_two, Fin.sum_univ_one]
    norm_num
  · intro h
    rw [show EUCNMF.basis_step c4tgt 2 1 (omat 1 1) c4V 0 0 = 5/9 by
        simp only [EUCNMF.basis_step, mmul, transp, clipBelow, omat, c4V, c4tgt,
          Fin.sum_univ_two, Fin.sum_univ_one]
        norm_num,
      show EUCNMF.claim_basis_formula c4tgt 2 1 (omat 1 1) c4V 0 0 = 10/17 by
        simp only [EUCNMF.claim_basis_formula, mmul, transp, clipBelow, omat, c4V, c4tgt,
          Fin.sum_univ_two, Fin.sum_univ_one]
        norm_num] at h
    norm_num at h

/-- Modelled from the amended claim's words (C4): the Euclidean basis
update with the product `T @ V` floored elementwise at `eps` (as a
maximum) before the powers are taken, and the denominator floored again
after the matrix product. -/
def EUCNMF.amended_basis_formula {bins bas frames : Nat} (target : Mat bins frames)
    (domain eps : ℝ) (T : Mat bins bas) (V : Mat bas frames) : Mat bins bas :=
  fun i k =>
    T i k *
      (mmul (fun b t => target b t * max (mmul T V b t) eps ^ ((2 - domain) / domain))
          (transp V) i k /
        max (mmul (fun b t => max (mmul T V b t) eps ^ ((4 - domain) / domain))
            (transp V) i k) eps) ^ (domain / (4 - domain))

/-- Modelled from the amended claim's words (C4): the symmetric
activation update with the same exponent, from the (already updated)
basis it receives. -/
def EUCNMF.amended_activation_formula {bins bas frames : Nat} (target : Mat bins frames)
    (domain eps : ℝ) (T : Mat bins bas) (V : Mat bas frames) : Mat bas frames :=
  fun k t =>
    V k t *
      (mmul (transp T)
          (fun b u => target b u * max (mmul T V b u) eps ^ ((2 - domain) / domain)) k t /
        max (mmul (transp T)
            (fun b u => max (mmul T V b u) eps ^ ((4 - domain) / domain)) k t) eps) ^
      (domain / (4 - domain))

lemma euc_basis_step_eq_amended {bins bas frames : Nat} (target : Mat bins frames)
    (domain eps : ℝ) (T : Mat bins bas) (V : Mat bas frames) :
    EUCNMF.basis_step target domain eps T V =
      EUCNMF.amended_basis_formula target domain eps T V := by
  funext i k
  simp only [EUCNMF.basis_step, EUCNMF.amended_basis_formula, clipBelow_eq_max]

lemma euc_activation_step_eq_amended {bins bas frames : Nat} (target : Mat bins frames)
    (domain eps : ℝ) (T : Mat bins bas) (V : Mat bas frames) :
    EUCNMF.activation_step target domain eps T V =
      EUCNMF.amended_activation_formula target domain eps T V := by
  funext k t
  simp only [EUCNMF.activation_step, EUCNMF.amended_activation_formula, clipBelow_eq_max]

/-- Claim C4 (amended): for the Euclidean MM engine, one update step
multiplies the basis elementwise by
`(((target * TVf^((2-domain)/domain)) @ Vᵀ) / floor((TVf^((4-domain)/domain)) @ Vᵀ))^(domain/(4-domain))`
where `TVf = max(T @ V, eps)` is the eps-floored product — the floor is
applied to `T @ V` *before* the powers, and again to the denominator
after the matrix product — and the activation update is symmetric with
the same exponent, computed from the just-updated basis. -/
theorem claim_C4_euc_update_formula {bins bas frames : Nat} (target : Mat bins frames)
    (domain eps : ℝ) (T : Mat bins bas) (V : Mat bas frames) :
    EUCNMF.update_once_mm target domain eps T V =
      (EUCNMF.amended_basis_formula target domain eps T V,
       EUCNMF.amended_activation_formula target domain eps
         (EUCNMF.amended_basis_formula target domain eps T V) V) := by
  unfold EUCNMF.update_once_mm
  rw [euc_basis_step_eq_amended, euc_activation_step_eq_amended]

/-- The zero complex 1×1 target for the C5 failing input. -/
def c5target : Fin 1 → Fin 1 → ℂ := fun _ _ => 0

/-- The zero phase tensor for the C5 failing input. -/
def c5phi : Fin 1 → Fin 1 → Fin 1 → ℝ := fun _ _ _ => 0

/-- Claim C5 (code bug): at the state `T = [[1]]`, `V = [[1]]`,
`Φ = [[[0]]]`, `target = [[0]]`, the loss the code appends
(`ComplexEUCNMF.update`, line 620, which multiplies by the raw phase
angles) is `0`, while the loss the claim prescribes — squared magnitude
against the reconstruction `Σ_k T_k ⊗ V_k ⊗ exp(iΦ_k)` — is `1`.  The
code applies the criterion to `basis ⊗ activation ⊗ phase` instead of
`basis ⊗ activation ⊗ exp(i·phase)` (the convention every other
reconstruction in the file uses, e.g. lines 634 and 929). -/
theorem claim_C5_loss_uses_raw_phase :
    ComplexEUCNMF.loss_entry c5target (omat 1 1) (omat 1 1) c5phi = 0 ∧
    ComplexEUCNMF.loss_spec c5target (omat 1 1) (omat 1 1) c5phi = 1 ∧
    ComplexEUCNMF.loss_entry c5target (omat 1 1) (omat 1 1) c5phi ≠
      ComplexEUCNMF.loss_spec c5target (omat 1 1) (omat 1 1) c5phi := by
  refine ⟨?_, ?_, ?_⟩
  · simp [ComplexEUCNMF.loss_entry, c5target, c5phi, omat]
  · simp [ComplexEUCNMF.loss_spec, c5target, c5phi, omat, Complex.exp_zero]
  · intro h
    rw [show ComplexEUCNMF.loss_entry c5target (omat 1 1) (omat 1 1) c5phi = 0 by
        simp [ComplexEUCNMF.loss_entry, c5target, c5phi, omat],
      show ComplexEUCNMF.loss_spec c5target (omat 1 1) (omat 1 1) c5phi = 1 by
        simp [ComplexEUCNMF.loss_spec, c5target, c5phi, omat, Complex.exp_zero]] at h
    exact zero_ne_one h

/-- Claim C3 (amended): out-of-range `domain` exponents are rejected at
construction, but the fixed-domain requirements of IS-'me' and
Student-t — and unknown algorithm names — are checked *inside*
`update_once`, i.e. inside the first update step of the loop, not at
construction or at the start of a run: constructing `ISNMF` with
`algorithm = 'me'`, `domain = 1.5` or `tNMF` with `domain = 1.5`
succeeds, a run of zero iterations completes without any error, and a
run of one or more iterations fails inside the first update step. -/
theorem claim_C3_checks_inside_first_step {bins bas frames : Nat} :
    (∀ (n : Nat) (d : ℝ) (a : String) (e nu : ℝ), ¬(1 ≤ d ∧ d ≤ 2) →
       ISNMF.mk n d a e = none ∧ tNMF.mk n nu d a e = none) ∧
    ISNMF.mk 1 (3/2) "me" 1 = some ⟨1, 3/2, "me", 1⟩ ∧
    tNMF.mk 1 1000 (3/2) "mm" 1 = some ⟨1, 1000, 3/2, "mm", 1⟩ ∧
    (∀ (s : RState bins bas frames) (target : Mat bins frames)
        (rT : Mat bins bas) (rV : Mat bas frames),
       ISNMF.run ⟨1, 3/2, "me", 1⟩ s target rT rV 0 = some ⟨rT, rV, s.loss⟩ ∧
       tNMF.run ⟨1, 1000, 3/2, "mm", 1⟩ s target rT rV 0 = some ⟨rT, rV, s.loss⟩) ∧
    (∀ (s : RState bins bas frames) (target : Mat bins frames)
        (rT : Mat bins bas) (rV : Mat bas frames) (n : Nat),
       ISNMF.run ⟨1, 3/2, "me", 1⟩ s target rT rV (n + 1) = none ∧
       tNMF.run ⟨1, 1000, 3/2, "mm", 1⟩ s target rT rV (n + 1) = none ∧
       CauchyNMF.run ⟨1, 2, "bogus", 1⟩ s target rT rV (n + 1) = none) := by
  refine ⟨?_, ?_, ?_, ?_, ?_⟩
  · intro n d a e nu h
    constructor
    · unfold ISNMF.mk; rw [if_neg h]
    · unfold tNMF.mk; rw [if_neg h]
  · unfold ISNMF.mk
    rw [if_pos ⟨by norm_num, by norm_num⟩]
  · unfold tNMF.mk
    rw [if_pos ⟨by norm_num, by norm_num⟩]
  · intro s target rT rV
    exact ⟨rfl, rfl⟩
  · intro s target rT rV n
    have his : ∀ st : RState bins bas frames,
        ISNMF.stepO (⟨1, 3/2, "me", 1⟩ : NMFCfg) target st = none := by
      intro st
      unfold ISNMF.stepO
      rw [if_neg (by decide), if_pos rfl, if_neg (by norm_num)]
    have ht : ∀ st : RState bins bas frames,
        tNMF.stepO (⟨1, 1000, 3/2, "mm", 1⟩ : TCfg) target st = none := by
      intro st
      unfold tNMF.stepO
      rw [if_pos rfl, if_neg (by norm_num)]
    have hc : ∀ st : RState bins bas frames,
        CauchyNMF.stepO (⟨1, 2, "bogus", 1⟩ : NMFCfg) target st = none := by
      intro st
      unfold CauchyNMF.stepO
      rw [if_neg (by decide), if_neg (by decide), if_neg (by decide),
        if_neg (by decide)]
    refine ⟨?_, ?_, ?_⟩
    · unfold ISNMF.run
      rw [appendLoopO_succ, his]
    · unfold tNMF.run
      rw [appendLoopO_succ, ht]
    · unfold CauchyNMF.run
      rw [appendLoopO_succ, hc]

/-- Witness for C3's construction-time conjunct at the out-of-range
`domain = 3`, and for the run conjuncts at a concrete 1×1 state. -/
theorem claim_C3_checks_inside_first_step_check :
    ISNMF.mk 1 3 "mm" 1 = none ∧
    ISNMF.run ⟨1, 3/2, "me", 1⟩ ⟨zmat 1 1, zmat 1 1, []⟩ (zmat 1 1)
      (zmat 1 1) (zmat 1 1) 0 = some ⟨zmat 1 1, zmat 1 1, []⟩ ∧
    ISNMF.run ⟨1, 3/2, "me", 1⟩ ⟨zmat 1 1, zmat 1 1, []⟩ (zmat 1 1)
      (zmat 1 1) (zmat 1 1) 1 = none :=
  ⟨((@claim_C3_checks_inside_first_step 1 1 1).1
      1 3 "mm" 1 1 (fun hc => absurd hc.2 (by norm_num))).1,
   ((@claim_C3_checks_inside_first_step 1 1 1).2.2.2.1
      ⟨zmat 1 1, zmat 1 1, []⟩ (zmat 1 1) (zmat 1 1) (zmat 1 1)).1,
   ((@claim_C3_checks_inside_first_step 1 1 1).2.2.2.2
      ⟨zmat 1 1, zmat 1 1, []⟩ (zmat 1 1) (zmat 1 1) (zmat 1 1) 0).1⟩

/-- Counterexample to C3 as stated: constructing `ISNMF` with
`algorithm = 'me'` and `domain = 1.5` succeeds (no error at
construction), and a run of zero iterations also completes without
error (no error at the start of a run); the configuration error
surfaces only when the first update step executes. -/
theorem claim_C3_counterexample :
    ISNMF.mk 1 (3/2) "me" 1 = some ⟨1, 3/2, "me", 1⟩ ∧
    ISNMF.run ⟨1, 3/2, "me", 1⟩ ⟨omat 1 1, omat 1 1, []⟩ (omat 1 1)
      (omat 1 1) (omat 1 1) 0 = some ⟨omat 1 1, omat 1 1, []⟩ ∧
    ISNMF.run ⟨1, 3/2, "me", 1⟩ ⟨omat 1 1, omat 1 1, []⟩ (omat 1 1)
      (omat 1 1) (omat 1 1) 1 = none := by
  refine ⟨?_, rfl, ?_⟩
  · unfold ISNMF.mk
    rw [if_pos ⟨by norm_num, by norm_num⟩]
  · have his : ∀ st : RState 1 1 1,
        ISNMF.stepO (⟨1, 3/2, "me", 1⟩ : NMFCfg) (omat 1 1) st = none := by
      intro st
      unfold ISNMF.stepO
      rw [if_neg (by decide), if_pos rfl, if_neg (by norm_num)]
    unfold ISNMF.run
    rw [appendLoopO_succ, his]

lemma appendLoopO_total {bins bas frames : Nat}
    {step : RState bins bas frames → Option (RState bins bas frames)}
    (lossOf : RState bins bas frames → ℝ)
    (h : ∀ s, ∃ s', step s = some s') :
    ∀ n (s : RState bins bas frames), ∃ r, appendLoopO step lossOf n s = some r := by
  intro n
  induction n with
  | zero => exact fun s => ⟨s, rfl⟩
  | succ n ih =>
    intro s
    obtain ⟨s', hs⟩ := h s
    obtain ⟨r, hr⟩ := ih ⟨s'.basis, s'.activation, s'.loss ++ [lossOf s']⟩
    exact ⟨r, by rw [appendLoopO_succ, hs]; exact hr⟩

/-- Claim C2 (amended): each call to `run` appends exactly `iteration`
scalars to the engine's loss trace; the trace is never cleared between
calls, so after the first call on a fresh engine it has exactly
`iteration` entries and after later calls the cumulative total.  For the
Euclidean, KL, Itakura-Saito and Cauchy engines every appended entry is
a non-negative real number (given a non-negative target, non-negative
random draws and positive `eps`); the Student-t engine can append
negative entries (see the counterexample). -/
theorem claim_C2_loss_trace {bins bas frames : Nat} (cfg : NMFCfg) (tcfg : TCfg)
    (target : Mat bins frames) (s : RState bins bas frames)
    (rT : Mat bins bas) (rV : Mat bas frames) (n : Nat) (r : RState bins bas frames)
    (htgt : Nonneg target) (hrT : Nonneg rT) (hrV : Nonneg rV) (heps : 0 < cfg.eps) :
    (EUCNMF.run cfg s target rT rV n = some r → r.loss.length = s.loss.length + n) ∧
    (KLNMF.run cfg s target rT rV n = some r → r.loss.length = s.loss.length + n) ∧
    (ISNMF.run cfg s target rT rV n = some r → r.loss.length = s.loss.length + n) ∧
    (tNMF.run tcfg s target rT rV n = some r → r.loss.length = s.loss.length + n) ∧
    (CauchyNMF.run cfg s target rT rV n = some r →
      r.loss.length = s.loss.length + n) ∧
    (EUCNMF.run cfg s target rT rV n = some r → (∀ x ∈ s.loss, 0 ≤ x) →
      ∀ x ∈ r.loss, 0 ≤ x) ∧
    (KLNMF.run cfg s target rT rV n = some r → (∀ x ∈ s.loss, 0 ≤ x) →
      ∀ x ∈ r.loss, 0 ≤ x) ∧
    (ISNMF.run cfg s target rT rV n = some r → (∀ x ∈ s.loss, 0 ≤ x) →
      ∀ x ∈ r.loss, 0 ≤ x) ∧
    (CauchyNMF.run cfg s target rT rV n = some r → (∀ x ∈ s.loss, 0 ≤ x) →
      ∀ x ∈ r.loss, 0 ≤ x) := by
  refine ⟨?_, ?_, ?_, ?_, ?_, ?_, ?_, ?_, ?_⟩
  · intro h
    unfold EUCNMF.run at h
    exact appendLoopO_length (euc_stepO_keep cfg target) n ⟨rT, rV, s.loss⟩ r h
  · intro h
    unfold KLNMF.run at h
    exact appendLoopO_length (kl_stepO_keep cfg target) n ⟨rT, rV, s.loss⟩ r h
  · intro h
    unfold ISNMF.run at h
    exact appendLoopO_length (is_stepO_keep cfg target) n ⟨rT, rV, s.loss⟩ r h
  · intro h
    unfold tNMF.run at h
    exact appendLoopO_length (t_stepO_keep tcfg target) n ⟨rT, rV, s.loss⟩ r h
  · intro h
    unfold CauchyNMF.run at h
    exact appendLoopO_length (cauchy_stepO_keep cfg target) n ⟨rT, rV, s.loss⟩ r h
  · intro h hold
    unfold EUCNMF.run at h
    exact appendLoopO_nonneg (fun _ _ => True) (euc_stepO_keep cfg target)
      (fun _ _ _ _ => trivial) (fun s' _ => euc_loss_entry_nonneg cfg target s')
      n ⟨rT, rV, s.loss⟩ r h trivial hold
  · intro h hold
    unfold KLNMF.run at h
    exact appendLoopO_nonneg (fun T' V' => Nonneg T' ∧ Nonneg V')
      (kl_stepO_keep cfg target) (fun s₁ s₂ hs hi => kl_stepO_nonneg htgt s₁ s₂ hs hi)
      (fun s' hi => kl_loss_entry_nonneg htgt heps s' hi.1 hi.2)
      n ⟨rT, rV, s.loss⟩ r h ⟨hrT, hrV⟩ hold
  · intro h hold
    unfold ISNMF.run at h
    exact appendLoopO_nonneg (fun T' V' => Nonneg T' ∧ Nonneg V')
      (is_stepO_keep cfg target) (fun s₁ s₂ hs hi => is_stepO_nonneg htgt s₁ s₂ hs hi)
      (fun s' hi => is_loss_entry_nonneg htgt heps s' hi.1 hi.2)
      n ⟨rT, rV, s.loss⟩ r h ⟨hrT, hrV⟩ hold
  · intro h hold
    unfold CauchyNMF.run at h
    exact appendLoopO_nonneg (fun T' V' => Nonneg T' ∧ Nonneg V')
      (cauchy_stepO_keep cfg target)
      (fun s₁ s₂ hs hi => cauchy_stepO_nonneg htgt s₁ s₂ hs hi)
      (fun s' hi => cauchy_loss_entry_nonneg htgt heps s' hi.1 hi.2)
      n ⟨rT, rV, s.loss⟩ r h ⟨hrT, hrV⟩ hold

/-- Witness for C2 at a zero-iteration Euclidean run from a fresh state
with zero matrices and `eps = 1`. -/
theorem claim_C2_loss_trace_check :
    EUCNMF.run ⟨1, 2, "mm", 1⟩ (⟨zmat 1 1, zmat 1 1, []⟩ : RState 1 1 1)
      (zmat 1 1) (zmat 1 1) (zmat 1 1) 0 = some ⟨zmat 1 1, zmat 1 1, []⟩ ∧
    (⟨zmat 1 1, zmat 1 1, []⟩ : RState 1 1 1).loss.length =
      (⟨zmat 1 1, zmat 1 1, []⟩ : RState 1 1 1).loss.length + 0 :=
  ⟨rfl,
   (claim_C2_loss_trace ⟨1, 2, "mm", 1⟩ ⟨1, 1, 2, "mm", 1⟩ (zmat 1 1)
      ⟨zmat 1 1, zmat 1 1, []⟩ (zmat 1 1) (zmat 1 1) 0 ⟨zmat 1 1, zmat 1 1, []⟩
      (zmat_nonneg 1 1) (zmat_nonneg 1 1) (zmat_nonneg 1 1) one_pos).1 rfl⟩

/-- Euclidean configuration for the C2 counterexample. -/
def c2cfg : NMFCfg := ⟨1, 2, "mm", 1⟩

/-- Student-t configuration for the C2 counterexample:
`nu = 1000`, `domain = 2`, `eps = 1/4`. -/
def c2tcfg : TCfg := ⟨1, 1000, 2, "mm", 1/4⟩

/-- First Euclidean call: one iteration from a fresh engine. -/
def c2run1 : Option (RState 1 1 1) :=
  EUCNMF.run c2cfg ⟨zmat 1 1, zmat 1 1, []⟩ (zmat 1 1) (zmat 1 1) (zmat 1 1) 1

/-- Second Euclidean call on the same engine instance: one more
iteration starting from the state the first call left behind. -/
def c2run2 : Option (RState 1 1 1) :=
  c2run1.bind fun r => EUCNMF.run c2cfg r (zmat 1 1) (zmat 1 1) (zmat 1 1) 1

/-- One Student-t iteration from a fresh engine on the zero target. -/
def c2trun : Option (RState 1 1 1) :=
  tNMF.run c2tcfg ⟨zmat 1 1, zmat 1 1, []⟩ (zmat 1 1) (zmat 1 1) (zmat 1 1) 1

/-- Counterexample to C2 as stated: (i) after a second call to `run`
with `iterations = 1` the loss trace has 2 entries, not 1 — the trace
accumulates across calls because `self.loss` is created once in
`NMFbase.__init__` and never cleared; and (ii) the Student-t engine's
first logged loss at the zero target with `eps = 1/4`, `nu = 1000` is
`log(1/4) + 501·log(1 + 1/500) < 0`, so entries need not be
non-negative. -/
theorem claim_C2_counterexample :
    Option.map (fun r : RState 1 1 1 => r.loss.length) c2run2 = some 2 ∧
    Option.map (fun r : RState 1 1 1 => r.loss.length) c2run2 ≠ some 1 ∧
    Option.map (fun r : RState 1 1 1 => r.loss) c2trun =
      some [tDiv 1000 (1/4) 0 0] ∧
    tDiv 1000 (1/4) 0 0 < 0 := by
  have hex : ∀ st : RState 1 1 1,
      ∃ st', EUCNMF.stepO c2cfg (zmat 1 1) st = some st' :=
    fun st => ⟨_, by
      unfold EUCNMF.stepO
      rw [if_pos (show c2cfg.algorithm = "mm" from rfl)]⟩
  have hlen2 : Option.map (fun r : RState 1 1 1 => r.loss.length) c2run2 = some 2 := by
    obtain ⟨r1, h1⟩ := appendLoopO_total (EUCNMF.loss_entry c2cfg (zmat 1 1)) hex 1
      ⟨zmat 1 1, zmat 1 1, []⟩
    have hl1 : r1.loss.length = 1 :=
      appendLoopO_length (euc_stepO_keep c2cfg (zmat 1 1)) 1
        ⟨zmat 1 1, zmat 1 1, []⟩ r1 h1
    obtain ⟨r2, h2⟩ := appendLoopO_total (EUCNMF.loss_entry c2cfg (zmat 1 1)) hex 1
      ⟨zmat 1 1, zmat 1 1, r1.loss⟩
    have hl2 : r2.loss.length = r1.loss.length + 1 :=
      appendLoopO_length (euc_stepO_keep c2cfg (zmat 1 1)) 1
        ⟨zmat 1 1, zmat 1 1, r1.loss⟩ r2 h2
    have hc1 : c2run1 = some r1 := h1
    have hc2 : c2run2 = some r2 := by
      unfold c2run2
      rw [hc1]
      exact h2
    rw [hc2]
    show some (r2.loss.length) = some 2
    rw [hl2, hl1]
  refine ⟨hlen2, ?_, ?_, ?_⟩
  · rw [hlen2]
    decide
  · have hB : ∀ i k, (tNMF.update_once_mm (zmat 1 1) c2tcfg.nu c2tcfg.domain c2tcfg.eps
        (zmat 1 1) (zmat 1 1)).1 i k = 0 := by
      intro i k
      simp [tNMF.update_once_mm, tNMF.basis_step, zmat]
    have hA : ∀ k t, (tNMF.update_once_mm (zmat 1 1) c2tcfg.nu c2tcfg.domain c2tcfg.eps
        (zmat 1 1) (zmat 1 1)).2 k t = 0 := by
      intro k t
      simp [tNMF.update_once_mm, tNMF.activation_step, zmat]
    have hstep : tNMF.stepO c2tcfg (zmat 1 1) ⟨zmat 1 1, zmat 1 1, []⟩ =
        some ⟨(tNMF.update_once_mm (zmat 1 1) c2tcfg.nu c2tcfg.domain c2tcfg.eps
                (zmat 1 1) (zmat 1 1)).1,
              (tNMF.update_once_mm (zmat 1 1) c2tcfg.nu c2tcfg.domain c2tcfg.eps
                (zmat 1 1) (zmat 1 1)).2, []⟩ := by
      unfold tNMF.stepO
      rw [if_pos (show c2tcfg.algorithm = "mm" from rfl),
        if_pos (show c2tcfg.domain = 2 from rfl)]
    have hentry : tNMF.loss_entry c2tcfg (zmat 1 1)
        ⟨(tNMF.update_once_mm (zmat 1 1) c2tcfg.nu c2tcfg.domain c2tcfg.eps
            (zmat 1 1) (zmat 1 1)).1,
          (tNMF.update_once_mm (zmat 1 1) c2tcfg.nu c2tcfg.domain c2tcfg.eps
            (zmat 1 1) (zmat 1 1)).2, []⟩ = tDiv 1000 (1/4) 0 0 := by
      unfold tNMF.loss_entry
      rw [Fin.sum_univ_one, Fin.sum_univ_one]
      have hmm : mmul (tNMF.update_once_mm (zmat 1 1) c2tcfg.nu c2tcfg.domain c2tcfg.eps
          (zmat 1 1) (zmat 1 1)).1
          (tNMF.update_once_mm (zmat 1 1) c2tcfg.nu c2tcfg.domain c2tcfg.eps
            (zmat 1 1) (zmat 1 1)).2 0 0 = 0 := by
        simp [mmul, hB, hA]
      rw [hmm]
      show tDiv 1000 (1/4) ((0 : ℝ) ^ ((2 : ℝ) / 2)) 0 = tDiv 1000 (1/4) 0 0
      rw [show ((2 : ℝ) / 2) = 1 by norm_num, Real.rpow_one]
    unfold c2trun tNMF.run
    rw [appendLoopO_succ, hstep]
    show Option.map _ (some _) = _
    simp only [List.nil_append, hentry]
    rfl
  · unfold tDiv
    rw [show (0 : ℝ) + 1/4 = 1/4 by norm_num]
    rw [show (1 : ℝ) + 2/1000 * ((1/4) / (1/4)) = 501/500 by norm_num]
    rw [show ((2 : ℝ) + 1000) / 2 = 501 by norm_num]
    have h1 : Real.log ((501 : ℝ)/500) ≤ 501/500 - 1 :=
      Real.log_le_sub_one_of_pos (by norm_num)
    have h2 : Real.log ((1 : ℝ)/4) = -(2 * Real.log 2) := by
      rw [show ((1 : ℝ)/4) = (2 : ℝ)⁻¹ ^ (2 : ℕ) by norm_num, Real.log_pow,
        Real.log_inv]
      push_cast
      ring
    have h3 := Real.log_two_gt_d9
    rw [h2]
    linarith
